import Mathlib

/-!
# Verification of the rawrxd RAR-header decoding engine

This file is a shallow embedding, in Lean 4, of the header/metadata decoding
engine of the `rawrxd` crate: the byte-stream reading primitives (`src/read.rs`),
the three-calendar timestamp codecs (`src/time_conv.rs`, `src/rar50/helpers.rs`),
the legacy filename byte-code decompressor (`src/rar15/decode_file_name.rs`),
the modern high-ASCII unmapper (`src/rar50/helpers.rs`), the extra-area record
machinery (`src/rar50/record_iterator.rs`, `src/parse_records.rs`), the three block
readers (`src/rar14/blocks.rs`, `src/rar15/blocks.rs`, `src/rar50/blocks.rs`)
and the three block iterators.

Modelling conventions:
* A byte stream is a `List Nat` of bytes together with an explicit cursor
  position; `read_exact`-style primitives fail with `RErr.eof` on a short read,
  mirroring `io::ErrorKind::UnexpectedEof`.
* Machine integers are `Nat`s; where Rust performs `uN` arithmetic whose
  operands can reach the wrap-around range (values decoded from vints), the
  result is reduced `% 2^N`.  `as`-casts are modelled by `% 2^N`.
* Rust `panic!`/`unwrap` sites that are reachable are modelled by the distinct
  outcome `RErr.panicked` so they are never conflated with an ordinary error.
* Fallible Rust functions returning `io::Result`/`Result` become `Except`.
-/

set_option maxHeartbeats 1000000

deriving instance DecidableEq for Except

namespace Rawrxd

/-- Outcome of a failed primitive operation while decoding.
`eof` models `io::ErrorKind::UnexpectedEof` (short read); `panicked` models a
reachable Rust panic (e.g. `String::from_utf8(..).unwrap()` on invalid UTF-8). -/
inductive RErr where
  | eof
  | panicked
  deriving DecidableEq, Repr

/-- `read.rs::read_u8`: read one byte from `file` at cursor `pos`. -/
def read_u8 (file : List Nat) (pos : Nat) : Except RErr (Nat × Nat) :=
  match file.get? pos with
  | some b => .ok (b, pos + 1)
  | none => .error .eof

/-- `read.rs::read_u16` (`u16::from_le_bytes`). -/
def read_u16 (file : List Nat) (pos : Nat) : Except RErr (Nat × Nat) := do
  let (b0, pos) ← read_u8 file pos
  let (b1, pos) ← read_u8 file pos
  pure (b0 + (b1 <<< 8), pos)

/-- `read.rs::read_u32` (`u32::from_le_bytes`). -/
def read_u32 (file : List Nat) (pos : Nat) : Except RErr (Nat × Nat) := do
  let (b0, pos) ← read_u8 file pos
  let (b1, pos) ← read_u8 file pos
  let (b2, pos) ← read_u8 file pos
  let (b3, pos) ← read_u8 file pos
  pure (b0 + (b1 <<< 8) + (b2 <<< 16) + (b3 <<< 24), pos)

/-- `read.rs::read_u64` (`u64::from_le_bytes`). -/
def read_u64 (file : List Nat) (pos : Nat) : Except RErr (Nat × Nat) := do
  let (b0, pos) ← read_u8 file pos
  let (b1, pos) ← read_u8 file pos
  let (b2, pos) ← read_u8 file pos
  let (b3, pos) ← read_u8 file pos
  let (b4, pos) ← read_u8 file pos
  let (b5, pos) ← read_u8 file pos
  let (b6, pos) ← read_u8 file pos
  let (b7, pos) ← read_u8 file pos
  pure (b0 + (b1 <<< 8) + (b2 <<< 16) + (b3 <<< 24) + (b4 <<< 32) +
    (b5 <<< 40) + (b6 <<< 48) + (b7 <<< 56), pos)

/-- `read.rs::MAX_VINT_SIZE`. -/
def MAX_VINT_SIZE : Nat := 10

/-- The loop body of `read.rs::read_vint`, with `fuel = MAX_VINT_SIZE - i`.
Each byte contributes its low 7 bits at position `i * 7` of a `u64`
accumulator (`vint |= ((byte & !0x80) as u64) << shift`, which truncates at
bit 63); a byte with the high bit clear terminates the loop. -/
def read_vint_loop (file : List Nat) : Nat → Nat → Nat → Nat → Except RErr ((Nat × Nat) × Nat)
  | 0, _, vint, pos => .ok ((vint, MAX_VINT_SIZE), pos)
  | fuel + 1, i, vint, pos =>
    match read_u8 file pos with
    | .error e => .error e
    | .ok (byte, pos) =>
      let shift := i * 7
      let vint := vint ||| ((byte &&& 0x7f) <<< shift) % 2 ^ 64
      if byte &&& 0x80 = 0 then .ok ((vint, i + 1), pos)
      else read_vint_loop file fuel (i + 1) vint pos

/-- `read.rs::read_vint`: read a base-128 variable-length integer, returning
the value and the number of bytes consumed. -/
def read_vint (file : List Nat) (pos : Nat) : Except RErr ((Nat × Nat) × Nat) :=
  read_vint_loop file MAX_VINT_SIZE 0 0 pos

/-- `read.rs::read_vec`: read exactly `size` bytes. -/
def read_vec (file : List Nat) (pos : Nat) (size : Nat) : Except RErr (List Nat × Nat) :=
  if pos + size ≤ file.length then .ok ((file.drop pos).take size, pos + size)
  else .error .eof

/-- `read.rs::read_const_bytes::<N>`: read exactly `n` bytes. -/
def read_const_bytes (file : List Nat) (pos : Nat) (n : Nat) : Except RErr (List Nat × Nat) :=
  read_vec file pos n

/-- `read.rs::read_vint_sized`: read a `size`-byte little-endian integer. -/
def read_vint_sized (file : List Nat) (pos : Nat) (size : Nat) : Except RErr (Nat × Nat) :=
  match size with
  | 0 => .ok (0, pos)
  | s + 1 =>
    match read_vint_sized file pos s with
    | .error e => .error e
    | .ok (num, pos) =>
      match read_u8 file pos with
      | .error e => .error e
      | .ok (byte, pos) => .ok (num ||| (byte <<< (s * 8)), pos)

/-! ## Unicode scalar values and UTF-8 (models of `char` and `String::from_utf8`) -/

/-- A `u32` is a valid Unicode scalar value (model of `char::from_u32` success). -/
def is_scalar_value (v : Nat) : Prop :=
  v < 0x110000 ∧ ¬(0xD800 ≤ v ∧ v ≤ 0xDFFF)

instance (v : Nat) : Decidable (is_scalar_value v) := by
  unfold is_scalar_value; infer_instance

/-- Model of `char::from_u32`. -/
def char_from_u32 (v : Nat) : Option Nat :=
  if is_scalar_value v then some v else none

/-- UTF-8 continuation byte. -/
def utf8_is_cont (b : Nat) : Bool := 0x80 ≤ b && b ≤ 0xBF

/-- Valid second byte of a 3-byte UTF-8 sequence with lead byte `b`
(excludes overlong encodings and surrogates, as Rust's validator does). -/
def utf8_3_second_ok (b c : Nat) : Bool :=
  if b = 0xE0 then 0xA0 ≤ c && c ≤ 0xBF
  else if b = 0xED then 0x80 ≤ c && c ≤ 0x9F
  else utf8_is_cont c

/-- Valid second byte of a 4-byte UTF-8 sequence with lead byte `b`. -/
def utf8_4_second_ok (b c : Nat) : Bool :=
  if b = 0xF0 then 0x90 ≤ c && c ≤ 0xBF
  else if b = 0xF4 then 0x80 ≤ c && c ≤ 0x8F
  else utf8_is_cont c

/-- Model of Rust's `String::from_utf8` validation, returning the decoded
sequence of Unicode scalar values on success. -/
def utf8_decode : List Nat → Option (List Nat)
  | [] => some []
  | b :: l =>
    if b ≤ 0x7F then (utf8_decode l).map (b :: ·)
    else if 0xC2 ≤ b && b ≤ 0xDF then
      match l with
      | c :: l => if utf8_is_cont c then
          (utf8_decode l).map ((((b - 0xC0) <<< 6) + (c - 0x80)) :: ·)
        else none
      | [] => none
    else if 0xE0 ≤ b && b ≤ 0xEF then
      match l with
      | c :: d :: l => if utf8_3_second_ok b c && utf8_is_cont d then
          (utf8_decode l).map
            ((((b - 0xE0) <<< 12) + ((c - 0x80) <<< 6) + (d - 0x80)) :: ·)
        else none
      | _ => none
    else if 0xF0 ≤ b && b ≤ 0xF4 then
      match l with
      | c :: d :: e :: l => if utf8_4_second_ok b c && utf8_is_cont d && utf8_is_cont e then
          (utf8_decode l).map
            ((((b - 0xF0) <<< 18) + ((c - 0x80) <<< 12) + ((d - 0x80) <<< 6) + (e - 0x80)) :: ·)
        else none
      | _ => none
    else none

/-- `read.rs::read_string`: read `size` bytes and attempt UTF-8 decoding;
an invalid string is surfaced as the raw bytes (`e.into_bytes()`). -/
def read_string (file : List Nat) (pos size : Nat) :
    Except RErr ((Except (List Nat) (List Nat)) × Nat) := do
  let (str, pos) ← read_vec file pos size
  match utf8_decode str with
  | some s => pure (Except.ok s, pos)
  | none => pure (Except.error str, pos)

/-! ## Calendar arithmetic and the `time` crate model

The `time` crate is an external dependency of the repository; it is modelled
here from its documented behaviour: an `OffsetDateTime`/`PrimitiveDateTime`
is a proleptic-Gregorian calendar date (valid years `-9999..=9999`) with a
time of day, and the `from_unix_timestamp{,_nanos}` constructors fail with a
`ComponentRange` error exactly when the result falls outside that range. -/

/-- Proleptic-Gregorian leap year. -/
def is_leap_year (y : Int) : Bool := y % 4 = 0 && (y % 100 ≠ 0 || y % 400 = 0)

/-- Number of days of month `m` (1-based) of year `y`. -/
def days_in_month (y : Int) (m : Nat) : Nat :=
  match m with
  | 1 => 31 | 2 => if is_leap_year y then 29 else 28 | 3 => 31
  | 4 => 30 | 5 => 31 | 6 => 30 | 7 => 31 | 8 => 31
  | 9 => 30 | 10 => 31 | 11 => 30 | 12 => 31
  | _ => 0

/-- Days from the civil epoch 1970-01-01 to year `y`, month `m`, day `d`
(Howard Hinnant's `days_from_civil`). -/
def days_from_civil (y : Int) (m : Nat) (d : Nat) : Int :=
  let y := if m ≤ 2 then y - 1 else y
  let era := Int.fdiv y 400
  let yoe := (y - era * 400).toNat
  let mp := if 2 < m then m - 3 else m + 9
  let doy := (153 * mp + 2) / 5 + d - 1
  let doe := yoe * 365 + yoe / 4 - yoe / 100 + doy
  era * 146097 + doe - 719468

/-- Inverse of `days_from_civil` (Howard Hinnant's `civil_from_days`). -/
def civil_from_days (z : Int) : Int × Nat × Nat :=
  let z := z + 719468
  let era := Int.fdiv z 146097
  let doe := (z - era * 146097).toNat
  let yoe := (doe - doe / 1460 + doe / 4896 - doe / 146096) / 365
  let doy := doe - (365 * yoe + yoe / 4 - yoe / 100)
  let mp := (5 * doy + 2) / 153
  let d := doy - (153 * mp + 2) / 5 + 1
  let m := if mp < 10 then mp + 3 else mp - 9
  let y := (yoe : Int) + era * 400 + (if m ≤ 2 then 1 else 0)
  (y, m, d)

/-- A calendar timestamp: model of the `time` crate's datetime types
(`PrimitiveDateTime` / UTC `OffsetDateTime`). -/
structure DateTime where
  year : Int
  month : Nat
  day : Nat
  hour : Nat
  minute : Nat
  second : Nat
  nanosecond : Nat
  deriving DecidableEq, Repr

/-- Smallest representable timestamp of the `time` crate, as Unix seconds. -/
def MIN_UNIX_SEC : Int := days_from_civil (-9999) 1 1 * 86400

/-- Largest representable timestamp of the `time` crate, as Unix seconds. -/
def MAX_UNIX_SEC : Int := days_from_civil 9999 12 31 * 86400 + 86399

/-- Smallest representable timestamp, in Unix nanoseconds. -/
def MIN_UNIX_NS : Int := MIN_UNIX_SEC * 1000000000

/-- Largest representable timestamp, in Unix nanoseconds. -/
def MAX_UNIX_NS : Int := MAX_UNIX_SEC * 1000000000 + 999999999

/-- Convert a Unix timestamp in nanoseconds to a calendar timestamp. -/
def datetime_of_unix_nanos (ns : Int) : DateTime :=
  let secs := Int.fdiv ns 1000000000
  let nano := (Int.emod ns 1000000000).toNat
  let days := Int.fdiv secs 86400
  let sod := (Int.emod secs 86400).toNat
  let ymd := civil_from_days days
  ⟨ymd.1, ymd.2.1, ymd.2.2, sod / 3600, sod / 60 % 60, sod % 60, nano⟩

/-- Model of `time::OffsetDateTime::from_unix_timestamp_nanos`: fails iff the
timestamp falls outside the representable years `-9999..=9999`. -/
def from_unix_timestamp_nanos (ns : Int) : Except Unit DateTime :=
  if ns < MIN_UNIX_NS ∨ MAX_UNIX_NS < ns then .error ()
  else .ok (datetime_of_unix_nanos ns)

/-- Model of `time::OffsetDateTime::from_unix_timestamp`. -/
def from_unix_timestamp (secs : Int) : Except Unit DateTime :=
  if secs < MIN_UNIX_SEC ∨ MAX_UNIX_SEC < secs then .error ()
  else .ok (datetime_of_unix_nanos (secs * 1000000000))

/-- Unix nanoseconds of a calendar timestamp. -/
def datetime_to_unix_nanos (t : DateTime) : Int :=
  (days_from_civil t.year t.month t.day * 86400 +
    t.hour * 3600 + t.minute * 60 + t.second) * 1000000000 + t.nanosecond

/-- `time::PrimitiveDateTime::MIN` (model). -/
def DATETIME_MIN : DateTime := ⟨-9999, 1, 1, 0, 0, 0, 0⟩

/-- `time::PrimitiveDateTime::MAX` (model). -/
def DATETIME_MAX : DateTime := ⟨9999, 12, 31, 23, 59, 59, 999999999⟩

/-- Model of the `time` crate's `saturating_add` of a duration of `delta`
nanoseconds: clamps at the representable range instead of failing. -/
def saturating_add_nanos (t : DateTime) (delta : Int) : DateTime :=
  let ns := datetime_to_unix_nanos t + delta
  if ns < MIN_UNIX_NS then DATETIME_MIN
  else if MAX_UNIX_NS < ns then DATETIME_MAX
  else datetime_of_unix_nanos ns

/-! ## `time_conv.rs` -/

/-- `time_conv.rs::parse_dos_datetime`: decode an MS-DOS packed datetime.
Validation mirrors `time::Time::from_hms`, `Month::try_from` and
`Date::from_calendar_date`. -/
def parse_dos_datetime (dos_time : Nat) : Except Unit DateTime :=
  let second := (dos_time &&& 0x1f) * 2
  let minute := (dos_time >>> 5) &&& 0x3f
  let hour := (dos_time >>> 11) &&& 0x1f
  if 23 < hour ∨ 59 < minute ∨ 59 < second then .error ()
  else
    let day := (dos_time >>> 16) &&& 0x1f
    let month := (dos_time >>> 21) &&& 0x0f
    let year : Int := ((dos_time >>> 25) + 1980 : Nat)
    if month < 1 ∨ 12 < month then .error ()
    else if day < 1 ∨ days_in_month year month < day then .error ()
    else .ok ⟨year, month, day, hour, minute, second, 0⟩

/-- `time_conv.rs::WINDOWS_TICK_NS`. -/
def WINDOWS_TICK_NS : Int := 100

/-- `time_conv.rs::WINDOWS_EPOCH_DIFFERENCE` (nanoseconds between the
1601-01-01 Windows epoch and the Unix epoch). -/
def WINDOWS_EPOCH_DIFFERENCE : Int := 11644473600 * 1000000000

/-- `time_conv.rs::parse_windows_filetime`: 100 ns ticks since 1601-01-01. -/
def parse_windows_filetime (filetime : Nat) : Except Unit DateTime :=
  from_unix_timestamp_nanos ((filetime : Int) * WINDOWS_TICK_NS - WINDOWS_EPOCH_DIFFERENCE)

/-- `time_conv.rs::parse_unix_timestamp_sec` (32-bit seconds). -/
def parse_unix_timestamp_sec (seconds : Nat) : Except Unit DateTime :=
  from_unix_timestamp (seconds : Int)

/-- `time_conv.rs::parse_unix_timestamp_ns` (64-bit nanoseconds). -/
def parse_unix_timestamp_ns (nanoseconds : Nat) : Except Unit DateTime :=
  from_unix_timestamp_nanos (nanoseconds : Int)

/-! ## `rar50/helpers.rs` -/

/-- `rar50/helpers.rs::read_unix_time_nanos`: a failed conversion is demoted
to a value-level `Result` carrying the raw 64-bit integer. -/
def read_unix_time_nanos (file : List Nat) (pos : Nat) :
    Except RErr ((Except Nat DateTime) × Nat) := do
  let (nanos, pos) ← read_u64 file pos
  pure ((parse_unix_timestamp_ns nanos).mapError (fun _ => nanos), pos)

/-- `rar50/helpers.rs::read_unix_time_sec`. -/
def read_unix_time_sec (file : List Nat) (pos : Nat) :
    Except RErr ((Except Nat DateTime) × Nat) := do
  let (seconds, pos) ← read_u32 file pos
  pure ((parse_unix_timestamp_sec seconds).mapError (fun _ => seconds), pos)

/-- `rar50/helpers.rs::read_windows_time`. -/
def read_windows_time (file : List Nat) (pos : Nat) :
    Except RErr ((Except Nat DateTime) × Nat) := do
  let (filetime, pos) ← read_u64 file pos
  pure ((parse_windows_filetime filetime).mapError (fun _ => filetime), pos)

/-- `rar50/helpers.rs::MAPPED_STRING_MARK` (`U+FFFE`). -/
def MAPPED_STRING_MARK : Nat := 0xFFFE

/-- `rar50/helpers.rs::MAP_CHAR` (`U+E000`). -/
def MAP_CHAR : Nat := 0xE000

/-- `rar50/helpers.rs::unmap_high_ascii_chars`: undo the RAR5 mapping of
high-ASCII bytes into the private-use area `0xE080..0xE100`, flagged by the
sentinel `U+FFFE`. -/
def unmap_high_ascii_chars (buf : List Nat) : Except (List Nat) (List Nat) :=
  match utf8_decode buf with
  | none => .error buf
  | some string =>
    if string.contains MAPPED_STRING_MARK then
      .ok (string.filterMap (fun c =>
        if 0xE080 ≤ c ∧ c < 0xE100 then char_from_u32 (c - MAP_CHAR)
        else if c = MAPPED_STRING_MARK then none
        else some c))
    else .ok string

/-! ## `rar15/decode_file_name.rs` -/

namespace Rar15

/-- `decode_file_name.rs::Instruction::new`: 2-bit opcode number `pos`
(0-based, most significant pair first) of the instruction byte. -/
def instruction_new (instructions pos : Nat) : Nat :=
  (instructions >>> ((3 - pos) * 2)) &&& 0x3

/-- `decode_file_name.rs::CopyNameInstruction`. -/
inductive CopyNameInstruction where
  | chunk (length : Nat)
  | chunkWithCorrection (length : Nat)
  deriving DecidableEq, Repr

/-- `decode_file_name.rs::CopyNameInstruction::new` (`HAS_CORRECTION = 0x80`):
with the top bit set the stored length is `length & !0x80`, otherwise
`length + 2`. -/
def copy_name_instruction_new (length : Nat) : CopyNameInstruction :=
  if length &&& 0x80 ≠ 0 then .chunkWithCorrection (length &&& 0x7f)
  else .chunk (length + 2)

/-- The `CopyNameInstruction::Chunk` loop of
`decode_file_name.rs::decode_rar_encoded_string`: copy `length` bytes of the
original name, starting at index `out.length` (characters emitted so far). -/
def copy_name_chunk (original_filename : List Nat) :
    Nat → List Nat → Option (List Nat)
  | 0, out => some out
  | n + 1, out =>
    match original_filename.get? out.length with
    | none => none
    | some char => copy_name_chunk original_filename n (out ++ [char])

/-- The `CopyNameInstruction::ChunkWithCorrection` loop of
`decode_file_name.rs::decode_rar_encoded_string`: each emitted character is
`char::from_u32(((original_byte + correction) & 0xFF) | (high_byte << 8))`. -/
def copy_name_chunk_corrected (original_filename : List Nat)
    (correction high_byte : Nat) : Nat → List Nat → Option (List Nat)
  | 0, out => some out
  | n + 1, out =>
    match original_filename.get? out.length with
    | none => none
    | some low_char =>
      let corrected_char := (low_char + correction) &&& 0xFF
      match char_from_u32 (corrected_char ||| (high_byte <<< 8)) with
      | none => none
      | some char =>
        copy_name_chunk_corrected original_filename correction high_byte n (out ++ [char])

/-- One opcode of the `decode_file_name.rs` virtual machine; returns the
remaining bytecode and the extended output. `none` is the `?`-propagated
decode failure. -/
def exec_instruction (original_filename : List Nat) (high_byte : Nat)
    (instruction : Nat) (bytecode out : List Nat) : Option (List Nat × List Nat) :=
  match instruction with
  | 0 =>
    match bytecode with
    | [] => none
    | char :: bytecode => some (bytecode, out ++ [char])
  | 1 =>
    match bytecode with
    | [] => none
    | low_char :: bytecode =>
      (char_from_u32 (low_char ||| (high_byte <<< 8))).map
        (fun char => (bytecode, out ++ [char]))
  | 2 =>
    match bytecode with
    | low_char :: high_char :: bytecode =>
      (char_from_u32 (low_char ||| (high_char <<< 8))).map
        (fun char => (bytecode, out ++ [char]))
    | _ => none
  | _ =>
    match bytecode with
    | [] => none
    | length :: bytecode =>
      match copy_name_instruction_new length with
      | .chunk length =>
        (copy_name_chunk original_filename length out).map (fun out => (bytecode, out))
      | .chunkWithCorrection length =>
        match bytecode with
        | [] => none
        | correction :: bytecode =>
          (copy_name_chunk_corrected original_filename correction high_byte length out).map
            (fun out => (bytecode, out))

theorem exec_instruction_length {orig : List Nat} {high instruction : Nat}
    {bytecode out bytecode' out' : List Nat}
    (h : exec_instruction orig high instruction bytecode out = some (bytecode', out')) :
    bytecode'.length < bytecode.length := by
  unfold exec_instruction at h
  split at h
  · rcases bytecode with _ | ⟨c, bc⟩
    · simp at h
    · simp only [Option.some.injEq, Prod.mk.injEq] at h
      obtain ⟨h1, _⟩ := h
      subst h1; simp only [List.length_cons]; omega
  · rcases bytecode with _ | ⟨c, bc⟩
    · simp at h
    · obtain ⟨ch, _, hf⟩ := Option.map_eq_some'.mp h
      cases hf; simp only [List.length_cons]; omega
  · rcases bytecode with _ | ⟨c, _ | ⟨d, bc⟩⟩
    · simp at h
    · simp at h
    · obtain ⟨ch, _, hf⟩ := Option.map_eq_some'.mp h
      cases hf; simp only [List.length_cons]; omega
  · rcases bytecode with _ | ⟨len, bc⟩
    · simp at h
    · rcases hcni : copy_name_instruction_new len with l | l
      · simp only [hcni] at h
        obtain ⟨o, _, hf⟩ := Option.map_eq_some'.mp h
        cases hf; simp only [List.length_cons]; omega
      · simp only [hcni] at h
        rcases bc with _ | ⟨corr, bc⟩
        · simp at h
        · obtain ⟨o, _, hf⟩ := Option.map_eq_some'.mp h
          cases hf; simp only [List.length_cons]; omega

/-- The inner `for i in 0..4` loop of
`decode_file_name.rs::decode_rar_encoded_string`, with `fuel = 4 - i`.
The returned `Bool` is `true` when all four opcodes were processed (the
outer loop continues) and `false` on `break 'outer` (bytecode exhausted). -/
def run_instructions (original_filename : List Nat) (high_byte instructions : Nat) :
    Nat → List Nat → List Nat → Option (List Nat × List Nat × Bool)
  | 0, bytecode, out => some (bytecode, out, true)
  | fuel + 1, bytecode, out =>
    if bytecode.isEmpty then some (bytecode, out, false)
    else
      match exec_instruction original_filename high_byte
          (instruction_new instructions (4 - (fuel + 1))) bytecode out with
      | none => none
      | some (bytecode, out) =>
        run_instructions original_filename high_byte instructions fuel bytecode out

theorem run_instructions_length {orig : List Nat} {high instructions : Nat} :
    ∀ {fuel : Nat} {bytecode out bytecode' out' : List Nat} {cont : Bool},
    run_instructions orig high instructions fuel bytecode out =
      some (bytecode', out', cont) → bytecode'.length ≤ bytecode.length := by
  intro fuel
  induction fuel with
  | zero => intro bc out bc' out' cont h; simp [run_instructions] at h; simp [h.1]
  | succ n ih =>
    intro bc out bc' out' cont h
    rw [run_instructions] at h
    split at h
    · simp at h; simp [h.1]
    · split at h
      · simp at h
      · rename_i heq
        exact le_trans (ih h) (le_of_lt (exec_instruction_length heq))

/-- The outer `'outer: while bytecode.peek().is_some()` loop of
`decode_file_name.rs::decode_rar_encoded_string`: take an instruction byte,
run its four 2-bit opcodes, repeat until the bytecode is exhausted. -/
def run_decode (original_filename : List Nat) (high_byte : Nat) :
    List Nat → List Nat → Option (List Nat)
  | [], out => some out
  | instructions :: bytecode, out =>
    match h : run_instructions original_filename high_byte instructions 4 bytecode out with
    | none => none
    | some (bytecode', out', cont) =>
      if cont then run_decode original_filename high_byte bytecode' out' else some out'
  termination_by bytecode _ => bytecode.length
  decreasing_by
    simp only [List.length_cons]
    exact Nat.lt_succ_of_le (run_instructions_length h)

/-- `decode_file_name.rs::decode_rar_encoded_string`: the original narrow
name is `file_name[..split_off_index]`; the byte after the separator is the
high byte; the rest is the instruction program. -/
def decode_rar_encoded_string (file_name : List Nat) (split_off_index : Nat) :
    Option (List Nat) :=
  let original_filename := file_name.take split_off_index
  let bytecode := file_name.drop (split_off_index + 1)
  match bytecode with
  | [] => none
  | high_byte :: bytecode => run_decode original_filename high_byte bytecode []

/-- `decode_file_name.rs::decode_file_name`: split at the first `0x00`; a
missing program means plain text; a decode failure degrades to the raw
bytes. -/
def decode_file_name (file_name : List Nat) : Except (List Nat) (List Nat) :=
  match file_name.findIdx? (· = 0) with
  | some i =>
    if file_name.length = i + 1 then
      let file_name := file_name.dropLast
      match utf8_decode file_name with
      | some s => .ok s
      | none => .error file_name
    else
      match decode_rar_encoded_string file_name i with
      | some s => .ok s
      | none => .error file_name
  | none =>
    match utf8_decode file_name with
    | some s => .ok s
    | none => .error file_name

end Rar15

/-! ## `error.rs` -/

/-- `error.rs::Error`: the fatal error type of the RAR14/RAR15 iterators.
`unexpectedEof` is `Error::UnexpectedEof` (the `From<io::Error>` conversion of
a short read); `corruptHeader` is `Error::CorruptHeader`; `panicked` models a
reachable Rust panic (there is no `Error::Io` case in the model because the
byte-list stream can only fail with a short read). -/
inductive RarError where
  | unexpectedEof
  | corruptHeader
  | panicked
  deriving DecidableEq, Repr

/-- The `From<io::Error> for Error` conversion of `error.rs`. -/
def RarError.ofRErr : RErr → RarError
  | .eof => .unexpectedEof
  | .panicked => .panicked

/-- `flags!`-generated accessor: `self.0 & MASK != 0`. -/
def has_flag (flags mask : Nat) : Bool := flags &&& mask ≠ 0

/-! ## `rar14/blocks.rs` -/

namespace Rar14

/-- `rar14/blocks.rs::OemString`. -/
inductive OemString where
  | ascii (s : List Nat)
  | oem (bytes : List Nat)
  deriving DecidableEq, Repr

/-- `rar14/blocks.rs::OemString::parse`: ASCII-only byte strings decode to
UTF-8 as themselves (the `unreachable!` branch cannot fire). -/
def OemString.parse (buf : List Nat) : OemString :=
  if buf.all (· ≤ 0x7F) then .ascii buf else .oem buf

/-- `rar14/blocks.rs::MainBlock`. -/
structure MainBlock where
  offset : Nat
  header_size : Nat
  flags : Nat
  deriving DecidableEq, Repr

/-- `rar14/blocks.rs::MainBlock::SIGNATURE_SIZE`. -/
def SIGNATURE_SIZE : Nat := 4

/-- `rar14/blocks.rs::MainBlock::read`.  The `read_u16(reader)? - 4` is `u16`
arithmetic; it is modelled wrapping (`% 2^16`, Rust release semantics). -/
def main_block_read (file : List Nat) (pos : Nat) : Except RErr (MainBlock × Nat) := do
  let offset := pos
  let (raw_size, pos) ← read_u16 file pos
  let header_size := (raw_size + 2 ^ 16 - SIGNATURE_SIZE) % 2 ^ 16
  let (flags, pos) ← read_u8 file pos
  pure (⟨offset, header_size, flags⟩, pos)

/-- `rar14/blocks.rs::FileBlock`. -/
structure FileBlock where
  offset : Nat
  header_size : Nat
  flags : Nat
  packed_data_size : Nat
  unpacked_data_size : Nat
  crc16 : Nat
  modification_time : Except Nat DateTime
  attributes : Nat
  unpack_version : Nat
  method : Nat
  comment : Option OemString
  name : OemString
  deriving DecidableEq, Repr

/-- `rar14/blocks.rs::FileBlock::read`. -/
def file_block_read (file : List Nat) (pos : Nat) : Except RErr (FileBlock × Nat) := do
  let offset := pos
  let (packed_data_size, pos) ← read_u32 file pos
  let (unpacked_data_size, pos) ← read_u32 file pos
  let (crc16, pos) ← read_u16 file pos
  let (header_size, pos) ← read_u16 file pos
  let (mtime_raw, pos) ← read_u32 file pos
  let modification_time := (parse_dos_datetime mtime_raw).mapError (fun _ => mtime_raw)
  let (attributes, pos) ← read_u8 file pos
  let (flags, pos) ← read_u8 file pos
  let (version_byte, pos) ← read_u8 file pos
  let unpack_version := if version_byte = 2 then 13 else 10
  let (name_size, pos) ← read_u8 file pos
  let (method, pos) ← read_u8 file pos
  let (comment, pos) ←
    if has_flag flags 0x08 then do
      let (comment_size, pos) ← read_u16 file pos
      let (comment, pos) ← read_vec file pos comment_size
      pure (some (OemString.parse comment), pos)
    else pure (none, pos)
  let (name, pos) ← read_vec file pos name_size
  let name := OemString.parse name
  pure (⟨offset, header_size, flags, packed_data_size, unpacked_data_size, crc16,
    modification_time, attributes, unpack_version, method, comment, name⟩, pos)

/-- `rar14/blocks.rs::Block`. -/
inductive Block where
  | main (b : MainBlock)
  | file (b : FileBlock)
  deriving DecidableEq, Repr

/-- `BlockSize::offset` for the RAR14 block. -/
def Block.offset : Block → Nat
  | .main b => b.offset
  | .file b => b.offset

/-- `BlockSize::header_size` for the RAR14 block. -/
def Block.header_size : Block → Nat
  | .main b => b.header_size
  | .file b => b.header_size

/-- `BlockSize::data_size` for the RAR14 block. -/
def Block.data_size : Block → Nat
  | .main _ => 0
  | .file b => b.packed_data_size

/-- `BlockSize::size` (the provided method `header_size + data_size`). -/
def Block.size (b : Block) : Nat := b.header_size + b.data_size

/-! ## `rar14/block_iterator.rs` -/

/-- The mutable fields of `rar14/block_iterator.rs::BlockIterator`. -/
structure IterState where
  fileSize : Nat
  nextOffset : Nat
  hasReadMainBlock : Bool
  deriving DecidableEq, Repr

/-- `rar14/block_iterator.rs::BlockIterator::new`: `file_size` is obtained by
seeking to the end of the stream. -/
def block_iterator_new (file : List Nat) (offset : Nat) : IterState :=
  ⟨file.length, offset, false⟩

/-- Lines 47–56 of `rar14/block_iterator.rs::read_block`: validate the bounds
invariants, then advance `next_offset`. -/
def check_and_advance (block : Block) (s : IterState) :
    Except RarError Block × IterState :=
  if block.size = 0 ∨ s.fileSize < block.offset + block.header_size ∨
      s.fileSize < block.offset + block.size then
    (.error .corruptHeader, s)
  else
    (.ok block, { s with nextOffset := block.offset + block.size })

/-- `rar14/block_iterator.rs::read_block`: seek to `next_offset`, read the
main block first and file blocks afterwards (`has_read_main_block` is set as
soon as the main block has been parsed, before the bounds check), validate,
advance. -/
def read_block (file : List Nat) (s : IterState) :
    Except RarError Block × IterState :=
  let pos := s.nextOffset
  if s.hasReadMainBlock then
    match file_block_read file pos with
    | .error e => (.error (RarError.ofRErr e), s)
    | .ok (fb, _) => check_and_advance (.file fb) s
  else
    match main_block_read file pos with
    | .error e => (.error (RarError.ofRErr e), s)
    | .ok (mb, _) =>
      check_and_advance (.main mb) { s with hasReadMainBlock := true }

/-- `rar14/block_iterator.rs::next` (the `Iterator` impl). -/
def next (file : List Nat) (s : IterState) :
    Option (Except RarError Block × IterState) :=
  if s.nextOffset = s.fileSize then none
  else some (read_block file s)

/-- The `n`-th item yielded by the RAR14 iterator started in state `s`
(0-based), together with the state after yielding it. -/
def nth_item (file : List Nat) (s : IterState) :
    Nat → Option (Except RarError Block × IterState)
  | 0 => next file s
  | n + 1 =>
    match next file s with
    | none => none
    | some (_, s') => nth_item file s' n

end Rar14

/-! ## `rar15/extended_time.rs` -/

namespace Rar15

/-- `rar15/extended_time.rs::ExtendedTime`. -/
structure ExtendedTime where
  modification_time : Except Nat DateTime
  creation_time : Option (Except Nat DateTime)
  access_time : Option (Except Nat DateTime)
  archive_time : Option (Except Nat DateTime)
  deriving DecidableEq, Repr

/-- `ExtendedTimeFlags::shifted`: `(flags >> (shift * 4)) as u8 & 0xF`. -/
def extended_time_flags_shifted (flags shift : Nat) : Nat :=
  ((flags >>> (shift * 4)) % 2 ^ 8) &&& 0xF

/-- `ExtendedTimeFlags::exists` (`0x8`). -/
def etf_exists (f : Nat) : Bool := f &&& 0x8 ≠ 0

/-- `ExtendedTimeFlags::add_second` (`0x4`). -/
def etf_add_second (f : Nat) : Bool := f &&& 0x4 ≠ 0

/-- `ExtendedTimeFlags::hundred_nanos_increment_precision` (`0x3`). -/
def etf_precision (f : Nat) : Nat := f &&& 0x3

/-- `rar15/extended_time.rs::read_extended_time_hundred_nanos`: read a
`size`-byte integer and left-shift it by `(3 - size)` bytes (`u32`). -/
def read_extended_time_hundred_nanos (file : List Nat) (pos size : Nat) :
    Except RErr (Nat × Nat) := do
  let (num, pos) ← read_vint_sized file pos size
  pure (((num % 2 ^ 32) <<< ((3 - size) * 8)) % 2 ^ 32, pos)

/-- `rar15/extended_time.rs::read_extended_time_increments`: optionally add
one second, then add the 100 ns increments. -/
def read_extended_time_increments (file : List Nat) (pos : Nat)
    (t : DateTime) (flags : Nat) : Except RErr (DateTime × Nat) := do
  let t := if etf_add_second flags then saturating_add_nanos t 1000000000 else t
  let (hundred_nanos, pos) ← read_extended_time_hundred_nanos file pos (etf_precision flags)
  let nanos := hundred_nanos * 100
  pure (saturating_add_nanos t nanos, pos)

/-- `rar15/extended_time.rs::read_extended_time`: read a base DOS timestamp
and its increments when the `exists` bit is set. -/
def read_extended_time (file : List Nat) (pos : Nat) (flags : Nat) :
    Except RErr (Option (Except Nat DateTime) × Nat) :=
  if etf_exists flags then do
    let (time, pos) ← read_u32 file pos
    match parse_dos_datetime time with
    | .ok t => do
      let (t, pos) ← read_extended_time_increments file pos t flags
      pure (some (.ok t), pos)
    | .error _ => pure (some (.error time), pos)
  else pure (none, pos)

/-- `rar15/extended_time.rs::ExtendedTime::read`: nibble order is
{mtime, ctime, atime, archive time}; the mtime base value has already been
read by the caller. -/
def extended_time_read (file : List Nat) (pos : Nat)
    (modification_time : Except Nat DateTime) : Except RErr (ExtendedTime × Nat) := do
  let (all_flags, pos) ← read_u16 file pos
  let flags := extended_time_flags_shifted all_flags 3
  let (modification_time, pos) ←
    match modification_time, etf_exists flags with
    | .ok t, true =>
      (read_extended_time_increments file pos t flags).map
        (fun tp => ((Except.ok tp.1 : Except Nat DateTime), tp.2))
    | t, _ => Except.ok (t, pos)
  let (creation_time, pos) ← read_extended_time file pos (extended_time_flags_shifted all_flags 2)
  let (access_time, pos) ← read_extended_time file pos (extended_time_flags_shifted all_flags 1)
  let (archive_time, pos) ← read_extended_time file pos (extended_time_flags_shifted all_flags 0)
  pure (⟨modification_time, creation_time, access_time, archive_time⟩, pos)

/-! ## `rar15/blocks.rs` -/

/-- `rar15/blocks.rs::HostOs` (`int_enum!` with an `Unknown` fallback). -/
inductive HostOs where
  | msDos | os2 | win32 | unix | macOs | beOs
  | unknown (v : Nat)
  deriving DecidableEq, Repr

/-- The `From<u8>` conversion of `HostOs`. -/
def HostOs.ofNat : Nat → HostOs
  | 0 => .msDos | 1 => .os2 | 2 => .win32 | 3 => .unix | 4 => .macOs | 5 => .beOs
  | v => .unknown v

/-- `rar15/blocks.rs::MainBlock`. -/
structure MainBlock where
  flags : Nat
  av_block_offset : Option Nat
  encrypt_version : Option Nat
  deriving DecidableEq, Repr

/-- `rar15/blocks.rs::MainBlock::read`. -/
def main_block_read (file : List Nat) (pos : Nat) (flags : Nat) :
    Except RErr (MainBlock × Nat) := do
  let (high_av_offset, pos) ← read_u16 file pos
  let (low_av_offset, pos) ← read_u32 file pos
  let av_offset := low_av_offset ||| (high_av_offset <<< 32)
  let av_block_offset := if av_offset = 0 then none else some av_offset
  let (encrypt_version, pos) ←
    if has_flag flags 0x0200 then
      (read_u8 file pos).map (fun vp => (some vp.1, vp.2))
    else Except.ok (none, pos)
  pure (⟨flags, av_block_offset, encrypt_version⟩, pos)

/-- `rar15/blocks.rs::Filename`. -/
inductive Filename where
  | unicode (r : Except (List Nat) (List Nat))
  | ascii (s : List Nat)
  | oem (bytes : List Nat)
  deriving DecidableEq, Repr

/-- `rar15/blocks.rs::FileBlock`. -/
structure FileBlock where
  flags : Nat
  packed_data_size : Nat
  unpacked_data_size : Nat
  host_os : HostOs
  file_crc32 : Nat
  modification_time : Except Nat DateTime
  creation_time : Option (Except Nat DateTime)
  access_time : Option (Except Nat DateTime)
  archive_time : Option (Except Nat DateTime)
  unpack_version : Nat
  method : Nat
  attributes : Nat
  file_name : Filename
  salt : Option (List Nat)
  deriving DecidableEq, Repr

/-- `rar15/blocks.rs::FileBlock::SALT_SIZE`. -/
def SALT_SIZE : Nat := 8

/-- `rar15/blocks.rs::FileBlock::read`.  Flag masks: `has_comment = 0x0002`,
`has_large_size = 0x0100`, `has_unicode_filename = 0x0200`,
`has_salt = 0x0400`, `has_extended_time = 0x1000`. -/
def file_block_read (file : List Nat) (pos : Nat) (flags : Nat) :
    Except RErr (FileBlock × Nat) := do
  let (low_packed_data_size, pos) ← read_u32 file pos
  let (low_unpacked_data_size, pos) ← read_u32 file pos
  let (host_os, pos) ← read_u8 file pos
  let host_os := HostOs.ofNat host_os
  let (file_crc32, pos) ← read_u32 file pos
  let (mtime_raw, pos) ← read_u32 file pos
  let modification_time := (parse_dos_datetime mtime_raw).mapError (fun _ => mtime_raw)
  let (unpack_version, pos) ← read_u8 file pos
  let (method, pos) ← read_u8 file pos
  let (name_size, pos) ← read_u16 file pos
  let (attributes, pos) ← read_u32 file pos
  let (sizes, pos) ←
    if has_flag flags 0x0100 then
      (do
        let (high_packed_data_size, pos) ← read_u32 file pos
        let (high_unpacked_data_size, pos) ← read_u32 file pos
        Except.ok (((high_packed_data_size >>> 32) ||| low_packed_data_size,
          (high_unpacked_data_size >>> 32) ||| low_unpacked_data_size), pos))
    else Except.ok ((low_packed_data_size, low_unpacked_data_size), pos)
  let packed_data_size := sizes.1
  let unpacked_data_size := sizes.2
  let (file_name, pos) ← read_vec file pos name_size
  let file_name :=
    if has_flag flags 0x0200 then Filename.unicode (decode_file_name file_name)
    else if file_name.all (· ≤ 0x7F) then Filename.ascii file_name
    else Filename.oem file_name
  let (salt, pos) ←
    if has_flag flags 0x0400 then
      (read_const_bytes file pos SALT_SIZE).map (fun vp => (some vp.1, vp.2))
    else Except.ok (none, pos)
  let (times, pos) ←
    if has_flag flags 0x1000 then
      (extended_time_read file pos modification_time).map (fun vp =>
        ((vp.1.modification_time, vp.1.creation_time, vp.1.access_time, vp.1.archive_time), vp.2))
    else Except.ok ((modification_time, none, none, none), pos)
  pure (⟨flags, packed_data_size, unpacked_data_size, host_os, file_crc32,
    times.1, times.2.1, times.2.2.1, times.2.2.2,
    unpack_version, method, attributes, file_name, salt⟩, pos)

/-- `rar15/blocks.rs::ServiceBlockKind`. -/
inductive ServiceBlockKind where
  | comment
  | ntfsFilePermissions
  | ntfsAlternateDataStream
  | unixOwner
  | authenticationVerification
  | recoveryRecord
  | os2ExtendedAttributes
  | beOsExtendedAttributes
  | unknown (bytes : List Nat)
  deriving DecidableEq, Repr

/-- `rar15/blocks.rs::ServiceBlockType::from_bytes` composed with the match
in `ServiceBlock::read` (`CMT`, `ACL`, `STM`, `UOW`, `AV`, `RR`, `EA2`,
`EABE`). -/
def service_block_kind_of_bytes (bytes : List Nat) : ServiceBlockKind :=
  if bytes = [67, 77, 84] then .comment
  else if bytes = [65, 67, 76] then .ntfsFilePermissions
  else if bytes = [83, 84, 77] then .ntfsAlternateDataStream
  else if bytes = [85, 79, 87] then .unixOwner
  else if bytes = [65, 86] then .authenticationVerification
  else if bytes = [82, 82] then .recoveryRecord
  else if bytes = [69, 65, 50] then .os2ExtendedAttributes
  else if bytes = [69, 65, 66, 69] then .beOsExtendedAttributes
  else .unknown bytes

/-- `rar15/blocks.rs::ServiceBlock`. -/
structure ServiceBlock where
  flags : Nat
  packed_data_size : Nat
  unpacked_data_size : Nat
  host_os : HostOs
  data_crc32 : Nat
  modification_time : Except Nat DateTime
  creation_time : Option (Except Nat DateTime)
  access_time : Option (Except Nat DateTime)
  archive_time : Option (Except Nat DateTime)
  unpack_version : Nat
  method : Nat
  sub_flags : Nat
  kind : ServiceBlockKind
  sub_data : Option (List Nat)
  salt : Option (List Nat)
  deriving DecidableEq, Repr

/-- `rar15/blocks.rs::ServiceBlock::SIZE`. -/
def SERVICE_BLOCK_SIZE : Nat := 32

/-- `rar15/blocks.rs::ServiceBlock::read`.  The `usize` expression
`header_size - name_size - 32 - salt` is modelled wrapping (`% 2^64`, Rust
release semantics); a wrapped-huge size makes the following `read_vec` fail
with a short read. -/
def service_block_read (file : List Nat) (pos : Nat) (flags header_size : Nat) :
    Except RErr (ServiceBlock × Nat) := do
  let (low_packed_data_size, pos) ← read_u32 file pos
  let (low_unpacked_data_size, pos) ← read_u32 file pos
  let (host_os, pos) ← read_u8 file pos
  let host_os := HostOs.ofNat host_os
  let (data_crc32, pos) ← read_u32 file pos
  let (mtime_raw, pos) ← read_u32 file pos
  let modification_time := (parse_dos_datetime mtime_raw).mapError (fun _ => mtime_raw)
  let (unpack_version, pos) ← read_u8 file pos
  let (method, pos) ← read_u8 file pos
  let (name_size, pos) ← read_u16 file pos
  let (sub_flags, pos) ← read_u32 file pos
  let (sizes, pos) ←
    if has_flag flags 0x0100 then
      (do
        let (high_packed_data_size, pos) ← read_u32 file pos
        let (high_unpacked_data_size, pos) ← read_u32 file pos
        Except.ok (((high_packed_data_size >>> 32) ||| low_packed_data_size,
          (high_unpacked_data_size >>> 32) ||| low_unpacked_data_size), pos))
    else Except.ok ((low_packed_data_size, low_unpacked_data_size), pos)
  let packed_data_size := sizes.1
  let unpacked_data_size := sizes.2
  let (kind_bytes, pos) ← read_vec file pos name_size
  let kind := service_block_kind_of_bytes kind_bytes
  let salt_size := if has_flag flags 0x0400 then SALT_SIZE else 0
  let sub_data_size :=
    (((header_size : Int) - name_size - SERVICE_BLOCK_SIZE - salt_size).emod (2 ^ 64)).toNat
  let (sub_data, pos) ←
    if 0 < sub_data_size then
      (read_vec file pos sub_data_size).map (fun vp => (some vp.1, vp.2))
    else Except.ok (none, pos)
  let (salt, pos) ←
    if has_flag flags 0x0400 then
      (read_const_bytes file pos SALT_SIZE).map (fun vp => (some vp.1, vp.2))
    else Except.ok (none, pos)
  let (times, pos) ←
    if has_flag flags 0x1000 then
      (extended_time_read file pos modification_time).map (fun vp =>
        ((vp.1.modification_time, vp.1.creation_time, vp.1.access_time, vp.1.archive_time), vp.2))
    else Except.ok ((modification_time, none, none, none), pos)
  pure (⟨flags, packed_data_size, unpacked_data_size, host_os, data_crc32,
    times.1, times.2.1, times.2.2.1, times.2.2.2,
    unpack_version, method, sub_flags, kind, sub_data, salt⟩, pos)

/-- `rar15/blocks.rs::CommentBlock`. -/
structure CommentBlock where
  unpacked_data_size : Nat
  unpack_version : Nat
  method : Nat
  crc16 : Nat
  deriving DecidableEq, Repr

/-- `rar15/blocks.rs::CommentBlock::read`. -/
def comment_block_read (file : List Nat) (pos : Nat) :
    Except RErr (CommentBlock × Nat) := do
  let (unpacked_data_size, pos) ← read_u16 file pos
  let (unpack_version, pos) ← read_u8 file pos
  let (method, pos) ← read_u8 file pos
  let (crc16, pos) ← read_u16 file pos
  pure (⟨unpacked_data_size, unpack_version, method, crc16⟩, pos)

/-- `rar15/blocks.rs::ProtectBlock`. -/
structure ProtectBlock where
  data_size : Nat
  version : Nat
  recovery_sectors : Nat
  total_blocks : Nat
  mark : List Nat
  deriving DecidableEq, Repr

/-- `rar15/blocks.rs::ProtectBlock::read` (`MARK_SIZE = 8`). -/
def protect_block_read (file : List Nat) (pos : Nat) :
    Except RErr (ProtectBlock × Nat) := do
  let (data_size, pos) ← read_u32 file pos
  let (version, pos) ← read_u8 file pos
  let (recovery_sectors, pos) ← read_u16 file pos
  let (total_blocks, pos) ← read_u32 file pos
  let (mark, pos) ← read_const_bytes file pos 8
  pure (⟨data_size, version, recovery_sectors, total_blocks, mark⟩, pos)

/-- `rar15/blocks.rs::UnixOwnerSubBlock` (`NAME_MAX_SIZE = 1000`). -/
structure UnixOwnerSubBlock where
  user : List Nat
  group : List Nat
  deriving DecidableEq, Repr

/-- `rar15/blocks.rs::UnixOwnerSubBlock::read`. -/
def unix_owner_sub_block_read (file : List Nat) (pos : Nat) :
    Except RErr (UnixOwnerSubBlock × Nat) := do
  let (user_size, pos) ← read_u16 file pos
  let (group_size, pos) ← read_u16 file pos
  let (user, pos) ← read_vec file pos (min user_size 999)
  let (group, pos) ← read_vec file pos (min group_size 999)
  pure (⟨user, group⟩, pos)

/-- `rar15/blocks.rs::MacOsInfoSubBlock`. -/
structure MacOsInfoSubBlock where
  file_type : Nat
  file_creator : Nat
  deriving DecidableEq, Repr

/-- `rar15/blocks.rs::MacOsInfoSubBlock::read`. -/
def mac_os_info_sub_block_read (file : List Nat) (pos : Nat) :
    Except RErr (MacOsInfoSubBlock × Nat) := do
  let (file_type, pos) ← read_u16 file pos
  let (file_creator, pos) ← read_u16 file pos
  pure (⟨file_type, file_creator⟩, pos)

/-- `rar15/blocks.rs::ExtendedAttributesFs`. -/
inductive ExtendedAttributesFs where
  | os2 | beOs | ntfs
  deriving DecidableEq, Repr

/-- `rar15/blocks.rs::ExtendedAttributesSubBlock`. -/
structure ExtendedAttributesSubBlock where
  filesystem : ExtendedAttributesFs
  unpacked_data_size : Nat
  unpack_version : Nat
  method : Nat
  extended_attributes_crc32 : Nat
  deriving DecidableEq, Repr

/-- `rar15/blocks.rs::ExtendedAttributesSubBlock::read`. -/
def extended_attributes_sub_block_read (file : List Nat) (pos : Nat)
    (filesystem : ExtendedAttributesFs) :
    Except RErr (ExtendedAttributesSubBlock × Nat) := do
  let (unpacked_data_size, pos) ← read_u32 file pos
  let (unpack_version, pos) ← read_u8 file pos
  let (method, pos) ← read_u8 file pos
  let (extended_attributes_crc32, pos) ← read_u32 file pos
  pure (⟨filesystem, unpacked_data_size, unpack_version, method,
    extended_attributes_crc32⟩, pos)

/-- `rar15/blocks.rs::NtfsStreamSubBlock`. -/
structure NtfsStreamSubBlock where
  unpacked_data_size : Nat
  unpack_version : Nat
  method : Nat
  stream_crc32 : Nat
  stream_name : List Nat
  deriving DecidableEq, Repr

/-- `rar15/blocks.rs::NtfsStreamSubBlock::read`. -/
def ntfs_stream_sub_block_read (file : List Nat) (pos : Nat) :
    Except RErr (NtfsStreamSubBlock × Nat) := do
  let (unpacked_data_size, pos) ← read_u32 file pos
  let (unpack_version, pos) ← read_u8 file pos
  let (method, pos) ← read_u8 file pos
  let (stream_crc32, pos) ← read_u32 file pos
  let (stream_name_size, pos) ← read_u16 file pos
  let (stream_name, pos) ← read_vec file pos (min stream_name_size 999)
  pure (⟨unpacked_data_size, unpack_version, method, stream_crc32, stream_name⟩, pos)

/-- `rar15/blocks.rs::SubBlockKind`. -/
inductive SubBlockKind where
  | unixOwner (b : UnixOwnerSubBlock)
  | macOsInfo (b : MacOsInfoSubBlock)
  | extendedAttributes (b : ExtendedAttributesSubBlock)
  | ntfsStream (b : NtfsStreamSubBlock)
  | unknown (sub_type : Nat)
  deriving DecidableEq, Repr

/-- `rar15/blocks.rs::SubBlock`. -/
structure SubBlock where
  data_size : Nat
  level : Nat
  kind : SubBlockKind
  deriving DecidableEq, Repr

/-- `rar15/blocks.rs::SubBlock::read` (`SubBlockType` tags
`0x100..=0x105`). -/
def sub_block_read (file : List Nat) (pos : Nat) :
    Except RErr (SubBlock × Nat) := do
  let (data_size, pos) ← read_u32 file pos
  let (sub_type, pos) ← read_u16 file pos
  let (level, pos) ← read_u8 file pos
  let (kind, pos) ←
    if sub_type = 0x101 then
      (unix_owner_sub_block_read file pos).map (fun vp => (SubBlockKind.unixOwner vp.1, vp.2))
    else if sub_type = 0x102 then
      (mac_os_info_sub_block_read file pos).map (fun vp => (SubBlockKind.macOsInfo vp.1, vp.2))
    else if sub_type = 0x100 then
      (extended_attributes_sub_block_read file pos .os2).map
        (fun vp => (SubBlockKind.extendedAttributes vp.1, vp.2))
    else if sub_type = 0x103 then
      (extended_attributes_sub_block_read file pos .beOs).map
        (fun vp => (SubBlockKind.extendedAttributes vp.1, vp.2))
    else if sub_type = 0x104 then
      (extended_attributes_sub_block_read file pos .ntfs).map
        (fun vp => (SubBlockKind.extendedAttributes vp.1, vp.2))
    else if sub_type = 0x105 then
      (ntfs_stream_sub_block_read file pos).map (fun vp => (SubBlockKind.ntfsStream vp.1, vp.2))
    else Except.ok (SubBlockKind.unknown sub_type, pos)
  pure (⟨data_size, level, kind⟩, pos)

/-- `rar15/blocks.rs::SignBlock`. -/
structure SignBlock where
  creation_time : Nat
  archive_name_size : Nat
  user_name_size : Nat
  deriving DecidableEq, Repr

/-- `rar15/blocks.rs::SignBlock::read`. -/
def sign_block_read (file : List Nat) (pos : Nat) :
    Except RErr (SignBlock × Nat) := do
  let (creation_time, pos) ← read_u32 file pos
  let (archive_name_size, pos) ← read_u16 file pos
  let (user_name_size, pos) ← read_u16 file pos
  pure (⟨creation_time, archive_name_size, user_name_size⟩, pos)

/-- `rar15/blocks.rs::AvBlock`. -/
structure AvBlock where
  unpack_version : Nat
  method : Nat
  av_version : Nat
  av_info_crc32 : Nat
  deriving DecidableEq, Repr

/-- `rar15/blocks.rs::AvBlock::read`. -/
def av_block_read (file : List Nat) (pos : Nat) :
    Except RErr (AvBlock × Nat) := do
  let (unpack_version, pos) ← read_u8 file pos
  let (method, pos) ← read_u8 file pos
  let (av_version, pos) ← read_u8 file pos
  let (av_info_crc32, pos) ← read_u32 file pos
  pure (⟨unpack_version, method, av_version, av_info_crc32⟩, pos)

/-- `rar15/blocks.rs::EndArchiveBlock`. -/
structure EndArchiveBlock where
  flags : Nat
  archive_data_crc32 : Option Nat
  volume_number : Option Nat
  deriving DecidableEq, Repr

/-- `rar15/blocks.rs::EndArchiveBlock::read` (`has_crc32 = 0x0002`,
`has_volume_number = 0x0008`). -/
def end_archive_block_read (file : List Nat) (pos : Nat) (flags : Nat) :
    Except RErr (EndArchiveBlock × Nat) := do
  let (archive_data_crc32, pos) ←
    if has_flag flags 0x0002 then
      (read_u32 file pos).map (fun vp => (some vp.1, vp.2))
    else Except.ok (none, pos)
  let (volume_number, pos) ←
    if has_flag flags 0x0008 then
      (read_u16 file pos).map (fun vp => (some vp.1, vp.2))
    else Except.ok (none, pos)
  pure (⟨flags, archive_data_crc32, volume_number⟩, pos)

/-- `rar15/blocks.rs::UnknownBlock`. -/
structure UnknownBlock where
  tag : Nat
  flags : Nat
  data_size : Option Nat
  deriving DecidableEq, Repr

/-- `rar15/blocks.rs::UnknownBlock::read` (`contains_data = 0x8000`). -/
def unknown_block_read (file : List Nat) (pos : Nat) (flags tag : Nat) :
    Except RErr (UnknownBlock × Nat) := do
  let (data_size, pos) ←
    if has_flag flags 0x8000 then
      (read_u32 file pos).map (fun vp => (some vp.1, vp.2))
    else Except.ok (none, pos)
  pure (⟨tag, flags, data_size⟩, pos)

/-- `rar15/blocks.rs::BlockKind`. -/
inductive BlockKind where
  | main (b : MainBlock)
  | file (b : FileBlock)
  | service (b : ServiceBlock)
  | endArchive (b : EndArchiveBlock)
  | comment (b : CommentBlock)
  | av (b : AvBlock)
  | sub (b : SubBlock)
  | protect (b : ProtectBlock)
  | sign (b : SignBlock)
  | unknown (b : UnknownBlock)
  deriving DecidableEq, Repr

/-- Whether the block kind is the terminal `EndArchive` sentinel. -/
def BlockKind.isEndArchive : BlockKind → Bool
  | .endArchive _ => true
  | _ => false

/-- `rar15/blocks.rs::Block`. -/
structure Block where
  offset : Nat
  header_crc16 : Nat
  header_size : Nat
  kind : BlockKind
  deriving DecidableEq, Repr

/-- `rar15/blocks.rs::Block::read`: common prefix (CRC16, type byte, flag
word, header size), then the type-specific body (type codes
`0x73..=0x7b`). -/
def block_read (file : List Nat) (pos : Nat) : Except RErr (Block × Nat) := do
  let offset := pos
  let (header_crc16, pos) ← read_u16 file pos
  let (block_type, pos) ← read_u8 file pos
  let (flags, pos) ← read_u16 file pos
  let (header_size, pos) ← read_u16 file pos
  let (kind, pos) ←
    if block_type = 0x73 then
      (main_block_read file pos flags).map (fun vp => (BlockKind.main vp.1, vp.2))
    else if block_type = 0x74 then
      (file_block_read file pos flags).map (fun vp => (BlockKind.file vp.1, vp.2))
    else if block_type = 0x7a then
      (service_block_read file pos flags header_size).map
        (fun vp => (BlockKind.service vp.1, vp.2))
    else if block_type = 0x75 then
      (comment_block_read file pos).map (fun vp => (BlockKind.comment vp.1, vp.2))
    else if block_type = 0x76 then
      (av_block_read file pos).map (fun vp => (BlockKind.av vp.1, vp.2))
    else if block_type = 0x77 then
      (sub_block_read file pos).map (fun vp => (BlockKind.sub vp.1, vp.2))
    else if block_type = 0x78 then
      (protect_block_read file pos).map (fun vp => (BlockKind.protect vp.1, vp.2))
    else if block_type = 0x79 then
      (sign_block_read file pos).map (fun vp => (BlockKind.sign vp.1, vp.2))
    else if block_type = 0x7b then
      (end_archive_block_read file pos flags).map (fun vp => (BlockKind.endArchive vp.1, vp.2))
    else
      (unknown_block_read file pos flags block_type).map
        (fun vp => (BlockKind.unknown vp.1, vp.2))
  pure (⟨offset, header_crc16, header_size, kind⟩, pos)

/-- `BlockSize::data_size` for the RAR15 block. -/
def Block.data_size (b : Block) : Nat :=
  match b.kind with
  | .file fb => fb.packed_data_size
  | .service sb => sb.packed_data_size
  | .sub sb => sb.data_size
  | .protect pb => pb.data_size
  | .unknown ub => ub.data_size.getD 0
  | .main _ | .endArchive _ | .comment _ | .av _ | .sign _ => 0

/-- `BlockSize::size` (the provided method `header_size + data_size`). -/
def Block.size (b : Block) : Nat := b.header_size + b.data_size

/-! ## `rar15/block_iterator.rs` -/

/-- The mutable fields of `rar15/block_iterator.rs::BlockIterator`. -/
structure IterState where
  fileSize : Nat
  nextOffset : Nat
  endOfArchiveReached : Bool
  deriving DecidableEq, Repr

/-- `rar15/block_iterator.rs::BlockIterator::new`. -/
def block_iterator_new (file : List Nat) (offset : Nat) : IterState :=
  ⟨file.length, offset, false⟩

/-- `rar15/block_iterator.rs::read_block`: seek to `next_offset`, parse one
block, validate the bounds invariants (yielding `Error::CorruptHeader` on
violation), advance `next_offset` and latch `end_of_archive_reached`. -/
def read_block (file : List Nat) (s : IterState) :
    Except RarError Block × IterState :=
  match block_read file s.nextOffset with
  | .error e => (.error (RarError.ofRErr e), s)
  | .ok (block, _) =>
    if block.size = 0 ∨ s.fileSize < block.offset + block.header_size ∨
        s.fileSize < block.offset + block.size then
      (.error .corruptHeader, s)
    else
      let s := { s with nextOffset := block.offset + block.size }
      let s := if block.kind.isEndArchive then { s with endOfArchiveReached := true } else s
      (.ok block, s)

/-- `rar15/block_iterator.rs::next` (the `Iterator` impl). -/
def next (file : List Nat) (s : IterState) :
    Option (Except RarError Block × IterState) :=
  if s.endOfArchiveReached then none
  else if s.nextOffset = s.fileSize then none
  else some (read_block file s)

/-- The `n`-th item yielded by the RAR15 iterator started in state `s`. -/
def nth_item (file : List Nat) (s : IterState) :
    Nat → Option (Except RarError Block × IterState)
  | 0 => next file s
  | n + 1 =>
    match next file s with
    | none => none
    | some (_, s') => nth_item file s' n

end Rar15

/-! ## `rar50/record_iterator.rs` -/

namespace Rar50

/-- `rar50/record_iterator.rs::CommonRecord`: the record tag and its payload,
buffered into an owned cursor (reads of the payload start at offset 0 of
`data` and cannot escape it). -/
structure CommonRecord where
  record_type : Nat
  data : List Nat
  deriving DecidableEq, Repr

/-- `rar50/record_iterator.rs::read_record`: seek to the record start, read
the `record_size` and `record_type` vints, then buffer
`record_size - size_of(record_type_vint)` payload bytes (`usize` arithmetic,
modelled wrapping `% 2^64`).  Returns the record, the next record position
(`+= record_size + byte_size`, `u64` wrapping), and the stream cursor. -/
def read_record (file : List Nat) (next_record_position : Nat) :
    Except RErr ((CommonRecord × Nat) × Nat) := do
  let ((record_size, byte_size), pos) ← read_vint file next_record_position
  let ((record_type, type_byte_size), pos) ← read_vint file pos
  let (data, pos) ←
    read_vec file pos (((record_size : Int) - type_byte_size).emod (2 ^ 64)).toNat
  pure ((⟨record_type, data⟩, (next_record_position + record_size + byte_size) % 2 ^ 64), pos)

/-- The `for record in RecordIterator::new(reader, extra_area_size)?` loop of
the `parse_records!` macro, folding `step` over the records of the extra
area `[next_record_position, end_position)`.  Returns the folded state and
the stream cursor after the last record.

The `new_next ≤ next_record_position` guard is unreachable for any stream
shorter than `2^64 - 20` bytes (a wrapped `next_record_position` requires
`read_vec` to have succeeded on an astronomically long payload); it is modelled
as the end-of-stream failure such a read would produce. -/
def records_loop (file : List Nat) {σ : Type} (step : σ → CommonRecord → Except RErr σ)
    (end_position : Nat) (st : σ) (next_record_position stream_pos : Nat) :
    Except RErr (σ × Nat) :=
  if next_record_position < end_position then
    match read_record file next_record_position with
    | .error e => .error e
    | .ok ((record, new_next), pos) =>
      match step st record with
      | .error e => .error e
      | .ok st =>
        if new_next ≤ next_record_position then .error .eof
        else records_loop file step end_position st new_next pos
  else .ok (st, stream_pos)
  termination_by end_position - next_record_position
  decreasing_by omega

/-! ## `rar50/blocks.rs`: extra-area records -/

/-- `rar50/blocks.rs::UnknownRecord` (only the tag is retained). -/
structure UnknownRecord where
  tag : Nat
  deriving DecidableEq, Repr

/-- `rar50/blocks.rs::LocatorRecord`. -/
structure LocatorRecord where
  quick_open_record_offset : Option Nat
  recovery_record_offset : Option Nat
  deriving DecidableEq, Repr

/-- `rar50/blocks.rs::LocatorRecord::read` (flags
`has_quick_open_record_offset = 0x01`, `has_recovery_record_offset = 0x02`;
a zero offset is demoted to `None`). -/
def locator_record_read (data : List Nat) : Except RErr LocatorRecord := do
  let ((flagsv, _), pos) ← read_vint data 0
  let flags := flagsv % 2 ^ 8
  let (quick_open_record_offset, pos) ←
    if has_flag flags 0x01 then
      (read_vint data pos).map
        (fun vp => (if vp.1.1 = 0 then none else some vp.1.1, vp.2))
    else Except.ok (none, pos)
  let (recovery_record_offset, _) ←
    if has_flag flags 0x02 then
      (read_vint data pos).map
        (fun vp => (if vp.1.1 = 0 then none else some vp.1.1, vp.2))
    else Except.ok ((none : Option Nat), pos)
  pure ⟨quick_open_record_offset, recovery_record_offset⟩

/-- `rar50/blocks.rs::MetadataRecord`. -/
structure MetadataRecord where
  name : Option (List Nat)
  creation_time : Option (Except Nat DateTime)
  deriving DecidableEq, Repr

/-- `rar50/blocks.rs::MetadataRecord::read` (flags `has_archive_name = 0x01`,
`has_creation_time = 0x02`, `uses_unix_time = 0x04`,
`is_unix_time_nanoseconds = 0x08`).  The archive name is truncated at the
first `0`; `String::from_utf8(name).unwrap()` panics on invalid UTF-8,
modelled as `RErr.panicked`. -/
def metadata_record_read (data : List Nat) : Except RErr MetadataRecord := do
  let ((flagsv, _), pos) ← read_vint data 0
  let flags := flagsv % 2 ^ 8
  let (name, pos) ←
    if has_flag flags 0x01 then do
      let ((name_size, _), pos) ← read_vint data pos
      let (name_vec, pos) ← read_vec data pos name_size
      let name_vec := name_vec.takeWhile (· ≠ 0)
      if name_vec.isEmpty then Except.ok ((none : Option (List Nat)), pos)
      else
        match utf8_decode name_vec with
        | some s => Except.ok (some s, pos)
        | none => Except.error .panicked
    else Except.ok (none, pos)
  let (creation_time, pos) ←
    if has_flag flags 0x02 then
      (if has_flag flags 0x04 then
        if has_flag flags 0x08 then
          (read_unix_time_nanos data pos).map (fun vp => (some vp.1, vp.2))
        else
          (read_unix_time_sec data pos).map (fun vp => (some vp.1, vp.2))
      else
        (read_windows_time data pos).map (fun vp => (some vp.1, vp.2)))
    else Except.ok ((none : Option (Except Nat DateTime)), pos)
  pure ⟨name, creation_time⟩

/-- `rar50/blocks.rs::FileEncryptionRecord` (flags
`has_password_check = 0x01`). -/
structure FileEncryptionRecord where
  flags : Nat
  kdf_count : Nat
  salt : List Nat
  iv : List Nat
  check_value : Option (List Nat)
  deriving DecidableEq, Repr

/-- `rar50/blocks.rs::FileEncryptionRecord::read`. -/
def file_encryption_record_read (data : List Nat) : Except RErr FileEncryptionRecord := do
  let ((flagsv, _), pos) ← read_vint data 0
  let flags := flagsv % 2 ^ 8
  let (kdf_count, pos) ← read_u8 data pos
  let (salt, pos) ← read_const_bytes data pos 16
  let (iv, pos) ← read_const_bytes data pos 16
  let (check_value, _) ←
    if has_flag flags 0x01 then
      (read_const_bytes data pos 12).map (fun vp => (some vp.1, vp.2))
    else Except.ok ((none : Option (List Nat)), pos)
  pure ⟨flags, kdf_count, salt, iv, check_value⟩

/-- `rar50/blocks.rs::FileHash`. -/
inductive FileHash where
  | blake2sp (hash : List Nat)
  | unknown (hash_type : Nat)
  deriving DecidableEq, Repr

/-- `rar50/blocks.rs::FileHashRecord`. -/
structure FileHashRecord where
  hash : FileHash
  deriving DecidableEq, Repr

/-- `rar50/blocks.rs::FileHashRecord::read` (`BLAKE2SP = 0x00`). -/
def file_hash_record_read (data : List Nat) : Except RErr FileHashRecord := do
  let ((hash_type, _), pos) ← read_vint data 0
  let (hash, _) ←
    if hash_type = 0 then
      (read_const_bytes data pos 32).map (fun vp => (FileHash.blake2sp vp.1, vp.2))
    else Except.ok (FileHash.unknown hash_type, pos)
  pure ⟨hash⟩

/-- `rar50/blocks.rs::FileTimeRecord`. -/
structure FileTimeRecord where
  modification_time : Option (Except Nat DateTime)
  creation_time : Option (Except Nat DateTime)
  access_time : Option (Except Nat DateTime)
  deriving DecidableEq, Repr

/-- Add a `u32` nanosecond increment to an already-parsed Unix timestamp
(`t.map(|x| x.saturating_add(Duration::nanoseconds(nanos)))`). -/
def file_time_add_nanos (t : Except Nat DateTime) (nanos : Nat) : Except Nat DateTime :=
  t.map (fun x => saturating_add_nanos x nanos)

/-- `rar50/blocks.rs::FileTimeRecord::read` (flags `uses_unix_time = 0x01`,
`has_modification_time = 0x02`, `has_creation_time = 0x04`,
`has_access_time = 0x08`, `has_unix_time_nanoseconds = 0x10`). -/
def file_time_record_read (data : List Nat) : Except RErr FileTimeRecord := do
  let ((flagsv, _), pos) ← read_vint data 0
  let flags := flagsv % 2 ^ 8
  if has_flag flags 0x01 then do
    let (modification_time, pos) ←
      if has_flag flags 0x02 then
        (read_unix_time_sec data pos).map (fun vp => (some vp.1, vp.2))
      else Except.ok ((none : Option (Except Nat DateTime)), pos)
    let (creation_time, pos) ←
      if has_flag flags 0x04 then
        (read_unix_time_sec data pos).map (fun vp => (some vp.1, vp.2))
      else Except.ok ((none : Option (Except Nat DateTime)), pos)
    let (access_time, pos) ←
      if has_flag flags 0x08 then
        (read_unix_time_sec data pos).map (fun vp => (some vp.1, vp.2))
      else Except.ok ((none : Option (Except Nat DateTime)), pos)
    if has_flag flags 0x10 then do
      let (modification_time, pos) ←
        match modification_time with
        | some t => (read_u32 data pos).map (fun vp => (some (file_time_add_nanos t vp.1), vp.2))
        | none => Except.ok ((none : Option (Except Nat DateTime)), pos)
      let (creation_time, pos) ←
        match creation_time with
        | some t => (read_u32 data pos).map (fun vp => (some (file_time_add_nanos t vp.1), vp.2))
        | none => Except.ok ((none : Option (Except Nat DateTime)), pos)
      let (access_time, _) ←
        match access_time with
        | some t => (read_u32 data pos).map (fun vp => (some (file_time_add_nanos t vp.1), vp.2))
        | none => Except.ok ((none : Option (Except Nat DateTime)), pos)
      pure ⟨modification_time, creation_time, access_time⟩
    else
      pure ⟨modification_time, creation_time, access_time⟩
  else do
    let (modification_time, pos) ←
      if has_flag flags 0x02 then
        (read_windows_time data pos).map (fun vp => (some vp.1, vp.2))
      else Except.ok ((none : Option (Except Nat DateTime)), pos)
    let (creation_time, pos) ←
      if has_flag flags 0x04 then
        (read_windows_time data pos).map (fun vp => (some vp.1, vp.2))
      else Except.ok ((none : Option (Except Nat DateTime)), pos)
    let (access_time, _) ←
      if has_flag flags 0x08 then
        (read_windows_time data pos).map (fun vp => (some vp.1, vp.2))
      else Except.ok ((none : Option (Except Nat DateTime)), pos)
    pure ⟨modification_time, creation_time, access_time⟩

/-- `rar50/blocks.rs::FileVersionRecord`. -/
structure FileVersionRecord where
  version_number : Nat
  deriving DecidableEq, Repr

/-- `rar50/blocks.rs::FileVersionRecord::read`. -/
def file_version_record_read (data : List Nat) : Except RErr FileVersionRecord := do
  let ((_flags, _), pos) ← read_vint data 0
  let ((version_number, _), _) ← read_vint data pos
  pure ⟨version_number⟩

/-- `rar50/blocks.rs::FileSystemRedirectionType` (`int_enum!`). -/
inductive FileSystemRedirectionType where
  | unixSymlink | windowsSymlink | windowsJunction | hardLink | fileCopy
  | unknown (v : Nat)
  deriving DecidableEq, Repr

/-- The `From<u16>` conversion of `FileSystemRedirectionType`. -/
def FileSystemRedirectionType.ofNat : Nat → FileSystemRedirectionType
  | 1 => .unixSymlink | 2 => .windowsSymlink | 3 => .windowsJunction
  | 4 => .hardLink | 5 => .fileCopy
  | v => .unknown v

/-- `rar50/blocks.rs::FileSystemRedirectionRecord`. -/
structure FileSystemRedirectionRecord where
  redirection_type : FileSystemRedirectionType
  flags : Nat
  name : List Nat
  deriving DecidableEq, Repr

/-- `rar50/blocks.rs::FileSystemRedirectionRecord::read`.
`String::from_utf8(name).unwrap()` panics on invalid UTF-8, modelled as
`RErr.panicked`. -/
def file_system_redirection_record_read (data : List Nat) :
    Except RErr FileSystemRedirectionRecord := do
  let ((redirection_type, _), pos) ← read_vint data 0
  let redirection_type := FileSystemRedirectionType.ofNat (redirection_type % 2 ^ 16)
  let ((flagsv, _), pos) ← read_vint data pos
  let flags := flagsv % 2 ^ 16
  let ((name_length, _), pos) ← read_vint data pos
  let (name_vec, _) ← read_vec data pos name_length
  match utf8_decode name_vec with
  | some name => pure ⟨redirection_type, flags, name⟩
  | none => Except.error .panicked

/-- `rar50/blocks.rs::UnixOwnerRecord` (flags `has_user_name = 0x01`,
`has_group_name = 0x02`, `has_user_id = 0x04`, `has_group_id = 0x08`). -/
structure UnixOwnerRecord where
  user_name : Option (Except (List Nat) (List Nat))
  group_name : Option (Except (List Nat) (List Nat))
  user_id : Option Nat
  group_id : Option Nat
  deriving DecidableEq, Repr

/-- `rar50/blocks.rs::UnixOwnerRecord::read`. -/
def unix_owner_record_read (data : List Nat) : Except RErr UnixOwnerRecord := do
  let ((flagsv, _), pos) ← read_vint data 0
  let flags := flagsv % 2 ^ 8
  let (user_name, pos) ←
    if has_flag flags 0x01 then do
      let ((size, _), pos) ← read_vint data pos
      (read_string data pos size).map (fun vp => (some vp.1, vp.2))
    else Except.ok ((none : Option (Except (List Nat) (List Nat))), pos)
  let (group_name, pos) ←
    if has_flag flags 0x02 then do
      let ((size, _), pos) ← read_vint data pos
      (read_string data pos size).map (fun vp => (some vp.1, vp.2))
    else Except.ok ((none : Option (Except (List Nat) (List Nat))), pos)
  let (user_id, pos) ←
    if has_flag flags 0x04 then
      (read_vint data pos).map (fun vp => (some vp.1.1, vp.2))
    else Except.ok ((none : Option Nat), pos)
  let (group_id, _) ←
    if has_flag flags 0x08 then
      (read_vint data pos).map (fun vp => (some vp.1.1, vp.2))
    else Except.ok ((none : Option Nat), pos)
  pure ⟨user_name, group_name, user_id, group_id⟩

/-- `rar50/blocks.rs::RecoveryRecordInfo`. -/
structure RecoveryRecordInfo where
  percentage : Nat
  unknown : List Nat
  deriving DecidableEq, Repr

/-- `rar50/blocks.rs::RecoveryRecordInfo::read`: one byte, then
`read_to_end` of the record cursor. -/
def recovery_record_info_read (data : List Nat) : Except RErr RecoveryRecordInfo := do
  let (percentage, pos) ← read_u8 data 0
  pure ⟨percentage, data.drop pos⟩

/-! ## `parse_records!` instantiations (`src/parse_records.rs`)

The macro expands, for each block type, to a per-record dispatch: the first
occurrence of a recognized tag is decoded into its typed field (the
`$tag if $var_name.is_none()` guard), every other record is pushed onto the
`unknown_records` list retaining only its tag. -/

/-- The record-dispatch state of `rar50/blocks.rs::MainBlock::read`
(`LOCATOR = 0x0001`, `METADATA = 0x0002`). -/
structure MainRecState where
  locator : Option LocatorRecord
  metadata : Option MetadataRecord
  unknown_records : List UnknownRecord
  deriving DecidableEq, Repr

/-- One arm execution of the `parse_records!` loop in `MainBlock::read`. -/
def main_record_step (st : MainRecState) (record : CommonRecord) :
    Except RErr MainRecState :=
  if record.record_type = 0x0001 ∧ st.locator.isNone then
    (locator_record_read record.data).map (fun l => { st with locator := some l })
  else if record.record_type = 0x0002 ∧ st.metadata.isNone then
    (metadata_record_read record.data).map (fun m => { st with metadata := some m })
  else
    Except.ok { st with unknown_records := st.unknown_records ++ [⟨record.record_type⟩] }

/-- The record-dispatch state of `rar50/blocks.rs::FileBlock::read`
(`CRYPT = 0x01`, `HASH = 0x02`, `HTIME = 0x03`, `VERSION = 0x04`,
`REDIR = 0x05`, `UOWNER = 0x06`). -/
structure FileRecState where
  encryption : Option FileEncryptionRecord
  hash : Option FileHashRecord
  extended_time : Option FileTimeRecord
  version : Option FileVersionRecord
  filesystem_redirection : Option FileSystemRedirectionRecord
  unix_owner : Option UnixOwnerRecord
  unknown_records : List UnknownRecord
  deriving DecidableEq, Repr

/-- One arm execution of the `parse_records!` loop in `FileBlock::read`. -/
def file_record_step (st : FileRecState) (record : CommonRecord) :
    Except RErr FileRecState :=
  if record.record_type = 0x01 ∧ st.encryption.isNone then
    (file_encryption_record_read record.data).map (fun r => { st with encryption := some r })
  else if record.record_type = 0x02 ∧ st.hash.isNone then
    (file_hash_record_read record.data).map (fun r => { st with hash := some r })
  else if record.record_type = 0x03 ∧ st.extended_time.isNone then
    (file_time_record_read record.data).map (fun r => { st with extended_time := some r })
  else if record.record_type = 0x04 ∧ st.version.isNone then
    (file_version_record_read record.data).map (fun r => { st with version := some r })
  else if record.record_type = 0x05 ∧ st.filesystem_redirection.isNone then
    (file_system_redirection_record_read record.data).map
      (fun r => { st with filesystem_redirection := some r })
  else if record.record_type = 0x06 ∧ st.unix_owner.isNone then
    (unix_owner_record_read record.data).map (fun r => { st with unix_owner := some r })
  else
    Except.ok { st with unknown_records := st.unknown_records ++ [⟨record.record_type⟩] }

/-- `rar50/blocks.rs::ServiceBlockType` (`CMT`, `QO`, `ACL`, `STM`, `RR`). -/
inductive ServiceBlockType where
  | comment | quickOpen | ntfsFilePermissions | ntfsAlternateDataStream | recoveryRecord
  deriving DecidableEq, Repr

/-- `rar50/blocks.rs::ServiceBlockType::from_bytes`. -/
def service_block_type_from_bytes (bytes : List Nat) : Option ServiceBlockType :=
  if bytes = [67, 77, 84] then some .comment
  else if bytes = [81, 79] then some .quickOpen
  else if bytes = [65, 67, 76] then some .ntfsFilePermissions
  else if bytes = [83, 84, 77] then some .ntfsAlternateDataStream
  else if bytes = [82, 82] then some .recoveryRecord
  else none

/-- The record-dispatch state of `rar50/blocks.rs::ServiceBlock::read`: the
six shared tags plus the `SERVICE_DATA = 0x07` extra arm. -/
structure ServiceRecState where
  encryption : Option FileEncryptionRecord
  hash : Option FileHashRecord
  extended_time : Option FileTimeRecord
  version : Option FileVersionRecord
  filesystem_redirection : Option FileSystemRedirectionRecord
  unix_owner : Option UnixOwnerRecord
  recovery_record : Option RecoveryRecordInfo
  unknown_records : List UnknownRecord
  deriving DecidableEq, Repr

/-- One arm execution of the `parse_records!` loop in `ServiceBlock::read`;
`name` is the service block's type name (`Err` holds the raw bytes of an
unknown name). -/
def service_record_step (name : Except (List Nat) ServiceBlockType)
    (st : ServiceRecState) (record : CommonRecord) : Except RErr ServiceRecState :=
  if record.record_type = 0x01 ∧ st.encryption.isNone then
    (file_encryption_record_read record.data).map (fun r => { st with encryption := some r })
  else if record.record_type = 0x02 ∧ st.hash.isNone then
    (file_hash_record_read record.data).map (fun r => { st with hash := some r })
  else if record.record_type = 0x03 ∧ st.extended_time.isNone then
    (file_time_record_read record.data).map (fun r => { st with extended_time := some r })
  else if record.record_type = 0x04 ∧ st.version.isNone then
    (file_version_record_read record.data).map (fun r => { st with version := some r })
  else if record.record_type = 0x05 ∧ st.filesystem_redirection.isNone then
    (file_system_redirection_record_read record.data).map
      (fun r => { st with filesystem_redirection := some r })
  else if record.record_type = 0x06 ∧ st.unix_owner.isNone then
    (unix_owner_record_read record.data).map (fun r => { st with unix_owner := some r })
  else if record.record_type = 0x07 then
    match name with
    | .ok .recoveryRecord =>
      (recovery_record_info_read record.data).map
        (fun r => { st with recovery_record := some r })
    | _ =>
      Except.ok { st with unknown_records := st.unknown_records ++ [⟨record.record_type⟩] }
  else
    Except.ok { st with unknown_records := st.unknown_records ++ [⟨record.record_type⟩] }

/-! ## `rar50/blocks.rs`: block types -/

/-- `rar50/mod.rs::MAX_PATH_SIZE`. -/
def MAX_PATH_SIZE : Nat := 0x10000

/-- `rar50/blocks.rs::HostOs` (`int_enum!`: `Windows = 0`, `Unix = 1`). -/
inductive HostOs where
  | windows | unix
  | unknown (v : Nat)
  deriving DecidableEq, Repr

/-- The `From<u8>` conversion of the RAR50 `HostOs`. -/
def HostOs.ofNat : Nat → HostOs
  | 0 => .windows | 1 => .unix
  | v => .unknown v

/-- `rar50/blocks.rs::MainBlock`. -/
structure MainBlock where
  flags : Nat
  volume_number : Option Nat
  locator : Option LocatorRecord
  metadata : Option MetadataRecord
  unknown_records : List UnknownRecord
  deriving DecidableEq, Repr

/-- `rar50/blocks.rs::MainBlock::read` (flags `has_volume_number = 0x0002`);
`extra_area_size` is the common header's extra-area size. -/
def main_block_read (file : List Nat) (pos : Nat) (extra_area_size : Option Nat) :
    Except RErr (MainBlock × Nat) := do
  let ((flagsv, _), pos) ← read_vint file pos
  let flags := flagsv % 2 ^ 16
  let (volume_number, pos) ←
    if has_flag flags 0x0002 then
      (read_vint file pos).map (fun vp => (some vp.1.1, vp.2))
    else Except.ok ((none : Option Nat), pos)
  let (st, pos) ←
    match extra_area_size with
    | some eas =>
      records_loop file main_record_step ((pos + eas) % 2 ^ 64) ⟨none, none, []⟩ pos pos
    | none => Except.ok ((⟨none, none, []⟩ : MainRecState), pos)
  pure (⟨flags, volume_number, st.locator, st.metadata, st.unknown_records⟩, pos)

/-- `rar50/blocks.rs::FileBlock` (the decoded fields; `compression_info` is
kept as the raw vint value of the `CompressionInfo` newtype). -/
structure FileBlock where
  flags : Nat
  unpacked_size : Option Nat
  attributes : Nat
  modification_time : Option (Except Nat DateTime)
  unpacked_data_crc32 : Option Nat
  compression_info : Nat
  host_os : HostOs
  name : Except (List Nat) (List Nat)
  encryption : Option FileEncryptionRecord
  hash : Option FileHashRecord
  extended_time : Option FileTimeRecord
  version : Option FileVersionRecord
  filesystem_redirection : Option FileSystemRedirectionRecord
  unix_owner : Option UnixOwnerRecord
  unknown_records : List UnknownRecord
  deriving DecidableEq, Repr

/-- `rar50/blocks.rs::FileBlock::read` (flags `is_directory = 0x0001`,
`has_modification_time = 0x0002`, `has_crc32 = 0x0004`,
`unknown_unpacked_size = 0x0008`). -/
def file_block_read (file : List Nat) (pos : Nat) (extra_area_size : Option Nat) :
    Except RErr (FileBlock × Nat) := do
  let ((flagsv, _), pos) ← read_vint file pos
  let flags := flagsv % 2 ^ 16
  let ((unpacked_size_raw, _), pos) ← read_vint file pos
  let unpacked_size := if has_flag flags 0x0008 then none else some unpacked_size_raw
  let ((attributes, _), pos) ← read_vint file pos
  let (modification_time, pos) ←
    if has_flag flags 0x0002 then
      (read_unix_time_sec file pos).map (fun vp => (some vp.1, vp.2))
    else Except.ok ((none : Option (Except Nat DateTime)), pos)
  let (unpacked_data_crc32, pos) ←
    if has_flag flags 0x0004 then
      (read_u32 file pos).map (fun vp => (some vp.1, vp.2))
    else Except.ok ((none : Option Nat), pos)
  let ((compression_info, _), pos) ← read_vint file pos
  let ((host_os, _), pos) ← read_vint file pos
  let ((name_length, _), pos) ← read_vint file pos
  let (name, pos) ← read_vec file pos (min name_length MAX_PATH_SIZE)
  let name := unmap_high_ascii_chars name
  let (st, pos) ←
    match extra_area_size with
    | some eas =>
      records_loop file file_record_step ((pos + eas) % 2 ^ 64)
        ⟨none, none, none, none, none, none, []⟩ pos pos
    | none => Except.ok ((⟨none, none, none, none, none, none, []⟩ : FileRecState), pos)
  pure (⟨flags, unpacked_size, attributes, modification_time, unpacked_data_crc32,
    compression_info, HostOs.ofNat (host_os % 2 ^ 8), name,
    st.encryption, st.hash, st.extended_time, st.version,
    st.filesystem_redirection, st.unix_owner, st.unknown_records⟩, pos)

/-- `rar50/blocks.rs::ServiceBlockKind`. -/
inductive ServiceBlockKind where
  | comment
  | quickOpen
  | ntfsFilePermissions
  | ntfsAlternateDataStream
  | recoveryRecord (info : Option RecoveryRecordInfo)
  | unknown (bytes : List Nat)
  deriving DecidableEq, Repr

/-- `rar50/blocks.rs::ServiceBlock`. -/
structure ServiceBlock where
  flags : Nat
  unpacked_size : Option Nat
  modification_time : Option (Except Nat DateTime)
  data_crc32 : Option Nat
  compression_info : Nat
  host_os : HostOs
  encryption : Option FileEncryptionRecord
  hash : Option FileHashRecord
  extended_time : Option FileTimeRecord
  version : Option FileVersionRecord
  filesystem_redirection : Option FileSystemRedirectionRecord
  unix_owner : Option UnixOwnerRecord
  unknown_records : List UnknownRecord
  kind : ServiceBlockKind
  deriving DecidableEq, Repr

/-- `rar50/blocks.rs::ServiceBlock::read` (flags
`has_modification_time = 0x0002`, `has_crc32 = 0x0004`,
`unknown_unpacked_size = 0x0008`). -/
def service_block_read (file : List Nat) (pos : Nat) (extra_area_size : Option Nat) :
    Except RErr (ServiceBlock × Nat) := do
  let ((flagsv, _), pos) ← read_vint file pos
  let flags := flagsv % 2 ^ 16
  let ((unpacked_size_raw, _), pos) ← read_vint file pos
  let unpacked_size := if has_flag flags 0x0008 then none else some unpacked_size_raw
  let ((_attributes, _), pos) ← read_vint file pos
  let (modification_time, pos) ←
    if has_flag flags 0x0002 then
      (read_unix_time_sec file pos).map (fun vp => (some vp.1, vp.2))
    else Except.ok ((none : Option (Except Nat DateTime)), pos)
  let (data_crc32, pos) ←
    if has_flag flags 0x0004 then
      (read_u32 file pos).map (fun vp => (some vp.1, vp.2))
    else Except.ok ((none : Option Nat), pos)
  let ((compression_info, _), pos) ← read_vint file pos
  let ((host_os, _), pos) ← read_vint file pos
  let ((name_length, _), pos) ← read_vint file pos
  let (name_bytes, pos) ← read_vec file pos name_length
  let name : Except (List Nat) ServiceBlockType :=
    match service_block_type_from_bytes name_bytes with
    | some t => .ok t
    | none => .error name_bytes
  let (st, pos) ←
    match extra_area_size with
    | some eas =>
      records_loop file (service_record_step name) ((pos + eas) % 2 ^ 64)
        ⟨none, none, none, none, none, none, none, []⟩ pos pos
    | none =>
      Except.ok ((⟨none, none, none, none, none, none, none, []⟩ : ServiceRecState), pos)
  let kind :=
    match name with
    | .ok .comment => ServiceBlockKind.comment
    | .ok .quickOpen => ServiceBlockKind.quickOpen
    | .ok .ntfsFilePermissions => ServiceBlockKind.ntfsFilePermissions
    | .ok .ntfsAlternateDataStream => ServiceBlockKind.ntfsAlternateDataStream
    | .ok .recoveryRecord => ServiceBlockKind.recoveryRecord st.recovery_record
    | .error bytes => ServiceBlockKind.unknown bytes
  pure (⟨flags, unpacked_size, modification_time, data_crc32, compression_info,
    HostOs.ofNat (host_os % 2 ^ 8), st.encryption, st.hash, st.extended_time,
    st.version, st.filesystem_redirection, st.unix_owner, st.unknown_records, kind⟩, pos)

/-- `rar50/blocks.rs::EncryptionVersion` (`int_enum!`: `Aes256 = 0`). -/
inductive EncryptionVersion where
  | aes256
  | unknown (v : Nat)
  deriving DecidableEq, Repr

/-- The `From<u8>` conversion of `EncryptionVersion`. -/
def EncryptionVersion.ofNat : Nat → EncryptionVersion
  | 0 => .aes256
  | v => .unknown v

/-- `rar50/blocks.rs::CryptBlock`. -/
structure CryptBlock where
  encryption_version : EncryptionVersion
  kdf_count : Nat
  salt : List Nat
  check_value : Option (List Nat)
  deriving DecidableEq, Repr

/-- `rar50/blocks.rs::CryptBlock::read` (flags
`has_password_check = 0x0001`). -/
def crypt_block_read (file : List Nat) (pos : Nat) :
    Except RErr (CryptBlock × Nat) := do
  let ((encryption_version, _), pos) ← read_vint file pos
  let encryption_version := EncryptionVersion.ofNat (encryption_version % 2 ^ 8)
  let ((flagsv, _), pos) ← read_vint file pos
  let flags := flagsv % 2 ^ 16
  let (kdf_count, pos) ← read_u8 file pos
  let (salt, pos) ← read_const_bytes file pos 16
  let (check_value, pos) ←
    if has_flag flags 0x0001 then
      (read_const_bytes file pos 12).map (fun vp => (some vp.1, vp.2))
    else Except.ok ((none : Option (List Nat)), pos)
  pure (⟨encryption_version, kdf_count, salt, check_value⟩, pos)

/-- `rar50/blocks.rs::EndArchiveBlock`. -/
structure EndArchiveBlock where
  flags : Nat
  deriving DecidableEq, Repr

/-- `rar50/blocks.rs::EndArchiveBlock::read`. -/
def end_archive_block_read (file : List Nat) (pos : Nat) :
    Except RErr (EndArchiveBlock × Nat) := do
  let ((flagsv, _), pos) ← read_vint file pos
  pure (⟨flagsv % 2 ^ 16⟩, pos)

/-- `rar50/blocks.rs::UnknownBlock`. -/
structure UnknownBlock where
  tag : Nat
  deriving DecidableEq, Repr

/-- `rar50/blocks.rs::BlockKind`. -/
inductive BlockKind where
  | main (b : MainBlock)
  | file (b : FileBlock)
  | service (b : ServiceBlock)
  | crypt (b : CryptBlock)
  | endArchive (b : EndArchiveBlock)
  | unknown (b : UnknownBlock)
  deriving DecidableEq, Repr

/-- Whether the block kind is the terminal `EndArchive` sentinel. -/
def BlockKind.isEndArchive : BlockKind → Bool
  | .endArchive _ => true
  | _ => false

/-- `rar50/blocks.rs::Block`. -/
structure Block where
  offset : Nat
  flags : Nat
  header_crc32 : Nat
  header_size : Nat
  extra_area_size : Option Nat
  data_size : Option Nat
  kind : BlockKind
  deriving DecidableEq, Repr

/-- `rar50/blocks.rs::Block::read`: common prefix (header CRC32, header-size
vint, type vint, flags vint, optional extra-area and data sizes), then the
type-specific body (`MAIN = 1`, `FILE = 2`, `SERVICE = 3`, `CRYPT = 4`,
`ENDARC = 5`).  `full_header_size = header_size + vint_size + 4` is `u64`
arithmetic, modelled wrapping.  Common flags: `has_extra_area = 0x0001`,
`has_data_area = 0x0002`. -/
def block_read (file : List Nat) (pos : Nat) : Except RErr (Block × Nat) := do
  let offset := pos
  let (header_crc32, pos) ← read_u32 file pos
  let ((header_size, vint_size), pos) ← read_vint file pos
  let full_header_size := (header_size + vint_size + 4) % 2 ^ 64
  let ((header_type, _), pos) ← read_vint file pos
  let ((flagsv, _), pos) ← read_vint file pos
  let flags := flagsv % 2 ^ 16
  let (extra_area_size, pos) ←
    if has_flag flags 0x0001 then
      (read_vint file pos).map (fun vp => (some vp.1.1, vp.2))
    else Except.ok ((none : Option Nat), pos)
  let (data_size, pos) ←
    if has_flag flags 0x0002 then
      (read_vint file pos).map (fun vp => (some vp.1.1, vp.2))
    else Except.ok ((none : Option Nat), pos)
  let (kind, pos) ←
    if header_type = 1 then
      (main_block_read file pos extra_area_size).map (fun vp => (BlockKind.main vp.1, vp.2))
    else if header_type = 2 then
      (file_block_read file pos extra_area_size).map (fun vp => (BlockKind.file vp.1, vp.2))
    else if header_type = 3 then
      (service_block_read file pos extra_area_size).map
        (fun vp => (BlockKind.service vp.1, vp.2))
    else if header_type = 4 then
      (crypt_block_read file pos).map (fun vp => (BlockKind.crypt vp.1, vp.2))
    else if header_type = 5 then
      (end_archive_block_read file pos).map (fun vp => (BlockKind.endArchive vp.1, vp.2))
    else Except.ok (BlockKind.unknown ⟨header_type⟩, pos)
  pure (⟨offset, flags, header_crc32, full_header_size, extra_area_size, data_size, kind⟩, pos)

/-- `BlockSize::data_size` for the RAR50 block (`data_size.unwrap_or(0)`). -/
def Block.dataSize (b : Block) : Nat := b.data_size.getD 0

/-- The block's full size `header_size + data_size` (the `BlockSize::size`
provided method / `full_size`); `u64` arithmetic, modelled wrapping. -/
def Block.full_size (b : Block) : Nat := (b.header_size + b.dataSize) % 2 ^ 64

/-! ## `rar50/block_iterator.rs` -/

/-- The mutable fields of `rar50/block_iterator.rs::BlockIterator`. -/
structure IterState where
  fileSize : Nat
  nextOffset : Nat
  endOfArchiveReached : Bool
  deriving DecidableEq, Repr

/-- `rar50/block_iterator.rs::BlockIterator::new` (the caller supplies
`file_size`). -/
def block_iterator_new (offset file_size : Nat) : IterState :=
  ⟨file_size, offset, false⟩

/-- `rar50/block_iterator.rs::read_block`: seek to `next_offset`, parse one
block, advance `next_offset` by the block's full size and latch
`end_of_archive_reached`.  Unlike the RAR14/RAR15 iterators there is no
bounds validation.  The item error type is the plain I/O error (`RErr`). -/
def read_block (file : List Nat) (s : IterState) :
    Except RErr Block × IterState :=
  match block_read file s.nextOffset with
  | .error e => (.error e, s)
  | .ok (block, _) =>
    let s := { s with nextOffset := (block.offset + block.full_size) % 2 ^ 64 }
    let s := if block.kind.isEndArchive then { s with endOfArchiveReached := true } else s
    (.ok block, s)

/-- `rar50/block_iterator.rs::next` (the `Iterator` impl). -/
def next (file : List Nat) (s : IterState) :
    Option (Except RErr Block × IterState) :=
  if s.endOfArchiveReached then none
  else if s.nextOffset = s.fileSize then none
  else some (read_block file s)

/-- The `n`-th item yielded by the RAR50 iterator started in state `s`. -/
def nth_item (file : List Nat) (s : IterState) :
    Nat → Option (Except RErr Block × IterState)
  | 0 => next file s
  | n + 1 =>
    match next file s with
    | none => none
    | some (_, s') => nth_item file s' n

end Rar50

/-! ## Specification-side definitions

These definitions are written from the specification's words (not from the
source); the claim theorems compare them against the embedded code. -/

/-- Spec §4.4: the value of the first `n` vint bytes, "accumulating each
byte's low 7 bits in little-endian base-128 order" — a base-128 little-endian
number — truncated to the `u64` accumulator (the spec's "may silently
truncate precision"). -/
def vint_spec_value (file : List Nat) (pos n : Nat) : Nat :=
  Nat.ofDigits 128 ((List.range n).map (fun j => file.getD (pos + j) 0 &&& 0x7f)) % 2 ^ 64

/-- Spec §3 dispatch rule for the main block's extra-area records, from the
claim's words: walking the record sequence, the first occurrence of each
recognized tag (`0x0001` locator, `0x0002` metadata) is decoded and
consumed; every later duplicate of a recognized tag and every unrecognized
tag contributes its tag to the unknown-records list. -/
def main_claim_unknown_tags (has_locator has_metadata : Bool) :
    List Rar50.CommonRecord → List Nat
  | [] => []
  | r :: rs =>
    if r.record_type = 0x0001 ∧ ¬has_locator then
      main_claim_unknown_tags true has_metadata rs
    else if r.record_type = 0x0002 ∧ ¬has_metadata then
      main_claim_unknown_tags has_locator true rs
    else
      r.record_type :: main_claim_unknown_tags has_locator has_metadata rs

/-- Spec §4.6(b), from the claim's words: remove every sentinel occurrence
and shift every code point in the private-use sub-range `0xE080..0xE100`
down by the fixed constant `0xE000`; keep every other code point as-is. -/
def unmap_claim_char (c : Nat) : Option Nat :=
  if c = MAPPED_STRING_MARK then none
  else if 0xE080 ≤ c ∧ c < 0xE100 then some (c - MAP_CHAR)
  else some c

/-- The list-level fold performed by the `parse_records!` loop over a
sequence of already-extracted records. -/
def process_records {σ : Type} (step : σ → Rar50.CommonRecord → Except RErr σ)
    (st : σ) : List Rar50.CommonRecord → Except RErr σ
  | [] => .ok st
  | r :: rs =>
    match step st r with
    | .error e => .error e
    | .ok st => process_records step st rs

/-! ## Concrete fixture streams used by witnesses and counterexamples -/

/-- A 7-byte RAR15 stream: CRC16 `0`, type `0x00` (unknown), flags `0`,
`header_size = 0` — a structurally parsed block violating the bounds
invariant. -/
def corrupt15_file : List Nat := [0, 0, 0, 0, 0, 0, 0]

/-- The block `corrupt15_file` parses to. -/
def corrupt15_block : Rar15.Block := ⟨0, 0, 0, .unknown ⟨0, 0, none⟩⟩

/-- A 3-byte RAR14 stream whose main block reports `header_size = 4 - 4 = 0`. -/
def corrupt14_file : List Nat := [4, 0, 7]

/-- The main block `corrupt14_file` parses to. -/
def corrupt14_main_block : Rar14.MainBlock := ⟨0, 0, 7⟩

/-- A 21-byte all-zero RAR14 file-block stream: every size field is zero, so
the parsed file block has `size = 0`. -/
def corrupt14_file_block_file : List Nat := List.replicate 21 0

/-- The file block `corrupt14_file_block_file` parses to. -/
def corrupt14_file_block : Rar14.FileBlock :=
  ⟨0, 0, 0, 0, 0, 0, .error 0, 0, 10, 0, none, .ascii []⟩

/-- A 9-byte RAR50 stream: CRC32 `0`, `header_size` vint `5` (so
`full_header_size = 5 + 1 + 4 = 10 > 9`), type `7` (unknown), flags `0x02`
(data area), `data_size` vint `16383` — a block whose declared sizes exceed
the file size. -/
def oversize50_file : List Nat := [0, 0, 0, 0, 0x05, 0x07, 0x02, 0xFF, 0x7F]

/-- The block `oversize50_file` parses to. -/
def oversize50_block : Rar50.Block := ⟨0, 2, 0, 10, none, some 16383, .unknown ⟨7⟩⟩

/-- A 1-byte RAR50 stream: reading the header CRC32 fails immediately. -/
def eof50_file : List Nat := [0]

/-- A 22-byte RAR14 stream whose main block declares `header_size = 65532`
(bounds violation), but which parses as a well-formed 21-byte file block once
`has_read_main_block` has been latched by the failed main-block attempt. -/
def sneaky14_file : List Nat :=
  [0, 0, 0, 0, 0, 0, 0, 0, 0, 0, 21, 0, 0, 0, 0, 0, 0, 0, 0, 0, 0, 0]

/-- The file block yielded by `sneaky14_file` on the second call. -/
def sneaky14_block : Rar14.FileBlock :=
  ⟨0, 21, 0, 0, 0, 0, .error 0, 0, 10, 0, none, .ascii []⟩

/-- A 3-byte well-formed RAR14 stream: one main block of `header_size = 3`
covering the whole file. -/
def ok14_file : List Nat := [7, 0, 0]

/-- A 7-byte well-formed RAR15 stream holding a single `EndArchive` block
(type `0x7b`, `header_size = 7`). -/
def end15_file : List Nat := [0, 0, 0x7b, 0, 0, 7, 0]

/-- The `EndArchive` block of `end15_file`. -/
def end15_block : Rar15.Block := ⟨0, 0, 7, .endArchive ⟨0, none, none⟩⟩

/-- An 8-byte RAR50 stream holding a single `EndArchive` block (type `5`). -/
def end50_file : List Nat := [0, 0, 0, 0, 0x02, 0x05, 0x00, 0x00]

/-- The `EndArchive` block of `end50_file`. -/
def end50_block : Rar50.Block := ⟨0, 0, 0, 7, none, none, .endArchive ⟨0⟩⟩

/-- A 17-byte RAR50 stream whose block declares `data_size = 2^64 - 5` (a
10-byte vint), so that `full_size = (5 + (2^64 - 5)) % 2^64 = 0` and
`next_offset` never advances: the iterator yields the same block forever. -/
def wrap50_file : List Nat :=
  [0, 0, 0, 0, 0x00, 0x07, 0x02,
    0xFB, 0xFF, 0xFF, 0xFF, 0xFF, 0xFF, 0xFF, 0xFF, 0xFF, 0x01]

/-- The block `wrap50_file` parses to (its `full_size` is `0`). -/
def wrap50_block : Rar50.Block :=
  ⟨0, 2, 0, 5, none, some 18446744073709551611, .unknown ⟨7⟩⟩

/-- Spec §3 (termination), per format: the block sequence is finite, i.e.
some call for the `n`-th item returns nothing. -/
def iter14_terminates (file : List Nat) (s : Rar14.IterState) : Prop :=
  ∃ n, Rar14.nth_item file s n = none

/-- Spec §3 (termination) for the RAR15 iterator. -/
def iter15_terminates (file : List Nat) (s : Rar15.IterState) : Prop :=
  ∃ n, Rar15.nth_item file s n = none

/-- Spec §3 (termination) for the RAR50 iterator. -/
def iter50_terminates (file : List Nat) (s : Rar50.IterState) : Prop :=
  ∃ n, Rar50.nth_item file s n = none

/-! ## Supporting lemmas -/

theorem or_mod_two (a b : Nat) : (a ||| b) % 2 = 1 ↔ a % 2 = 1 ∨ b % 2 = 1 :=
  Nat.or_mod_two_eq_one

theorem or_mul_two_pow_eq_add : ∀ (k : Nat) {a c : Nat}, a < 2 ^ k →
    a ||| c * 2 ^ k = a + c * 2 ^ k := by
  intro k
  induction k with
  | zero =>
    intro a c ha
    have : a = 0 := by omega
    subst this
    simp
  | succ k ih =>
    intro a c ha
    have hp : (2 : Nat) ^ (k + 1) = 2 ^ k * 2 := by ring
    have hY : c * 2 ^ (k + 1) = (c * 2 ^ k) * 2 := by rw [hp]; ring
    have hdiv : (a ||| c * 2 ^ (k + 1)) / 2 = a / 2 ||| c * 2 ^ k := by
      rw [Nat.or_div_two]
      congr 1
      rw [hY]
      exact Nat.mul_div_cancel _ (by norm_num)
    have hmod2 : (c * 2 ^ (k + 1)) % 2 = 0 := by
      rw [hY]
      exact Nat.mul_mod_left _ 2
    have hmod : (a ||| c * 2 ^ (k + 1)) % 2 = a % 2 := by
      have hiff := Nat.or_mod_two_eq_one (a := a) (b := c * 2 ^ (k + 1))
      rcases Nat.mod_two_eq_zero_or_one a with h | h <;>
        rcases Nat.mod_two_eq_zero_or_one (a ||| c * 2 ^ (k + 1)) with h2 | h2 <;> omega
    have hd2 : a / 2 < 2 ^ k := by omega
    have hih := ih hd2 (c := c)
    have hdm := Nat.div_add_mod (a ||| c * 2 ^ (k + 1)) 2
    rw [hdiv, hih, hmod] at hdm
    have hdma := Nat.div_add_mod a 2
    omega

theorem ofDigits_128_lt : ∀ (l : List Nat), (∀ d ∈ l, d < 128) →
    Nat.ofDigits 128 l < 128 ^ l.length := by
  intro l
  induction l with
  | nil => intro _; simp [Nat.ofDigits]
  | cons d l ih =>
    intro h
    have hd : d < 128 := h d (List.mem_cons_self d l)
    have hl := ih (fun x hx => h x (List.mem_cons_of_mem d hx))
    rw [Nat.ofDigits_cons]
    have : (128 : Nat) ^ (d :: l).length = 128 * 128 ^ l.length := by
      simp [List.length_cons]; ring
    push_cast
    omega

/-- The `u64` accumulator of `read_vint_loop` after the first `n` bytes. -/
def vint_acc (file : List Nat) (pos : Nat) : Nat → Nat
  | 0 => 0
  | j + 1 =>
    vint_acc file pos j |||
      (((file.getD (pos + j) 0) &&& 0x7f) <<< (j * 7)) % 2 ^ 64

theorem vint_acc_eq_spec (file : List Nat) (pos : Nat) :
    ∀ n, n ≤ 10 → vint_acc file pos n = vint_spec_value file pos n ∧
      (n ≤ 9 → vint_acc file pos n < 2 ^ (7 * n)) := by
  have hofd : ∀ m, Nat.ofDigits 128
      ((List.range m).map (fun j => file.getD (pos + j) 0 &&& 0x7f)) <
        128 ^ m := by
    intro m
    have := ofDigits_128_lt ((List.range m).map (fun j => file.getD (pos + j) 0 &&& 0x7f))
      (by
        intro d hd
        simp only [List.mem_map] at hd
        obtain ⟨j, _, rfl⟩ := hd
        have : file.getD (pos + j) 0 &&& 0x7f ≤ 0x7f := Nat.and_le_right
        omega)
    simpa using this
  intro n
  induction n with
  | zero =>
    intro _
    constructor
    · simp [vint_acc, vint_spec_value, Nat.ofDigits]
    · intro _; simp [vint_acc]
  | succ n ih =>
    intro hn
    obtain ⟨ihv, ihlt⟩ := ih (by omega)
    have hd : file.getD (pos + n) 0 &&& 0x7f < 128 := by
      have : file.getD (pos + n) 0 &&& 0x7f ≤ 0x7f := Nat.and_le_right
      omega
    have hsplit : (List.range (n + 1)).map (fun j => file.getD (pos + j) 0 &&& 0x7f) =
        ((List.range n).map (fun j => file.getD (pos + j) 0 &&& 0x7f)) ++
          [file.getD (pos + n) 0 &&& 0x7f] := by
      rw [List.range_succ, List.map_append]
      simp
    have hsum : Nat.ofDigits 128
        ((List.range (n + 1)).map (fun j => file.getD (pos + j) 0 &&& 0x7f)) =
        Nat.ofDigits 128 ((List.range n).map (fun j => file.getD (pos + j) 0 &&& 0x7f)) +
          128 ^ n * (file.getD (pos + n) 0 &&& 0x7f) := by
      rw [hsplit, Nat.ofDigits_append]
      simp [Nat.ofDigits]
    have hpow : (128 : Nat) ^ n = 2 ^ (7 * n) := by
      rw [show (128 : Nat) = 2 ^ 7 by norm_num, ← Nat.pow_mul]
    have hS := hofd n
    rw [hpow] at hS
    have hspecn : vint_spec_value file pos n =
        Nat.ofDigits 128 ((List.range n).map (fun j => file.getD (pos + j) 0 &&& 0x7f)) := by
      unfold vint_spec_value
      rcases Nat.lt_or_ge n 10 with h10 | h10
      · exact Nat.mod_eq_of_lt (lt_of_lt_of_le hS
          (Nat.pow_le_pow_right (by norm_num) (by omega)))
      · omega
    rcases Nat.lt_or_ge n 9 with h9 | h9
    · -- no truncation: 7*(n+1) ≤ 63
      have hterm : ((file.getD (pos + n) 0 &&& 0x7f) <<< (n * 7)) % 2 ^ 64 =
          (file.getD (pos + n) 0 &&& 0x7f) * 2 ^ (7 * n) := by
        rw [Nat.shiftLeft_eq, Nat.mod_eq_of_lt]
        · ring_nf
        · calc (file.getD (pos + n) 0 &&& 0x7f) * 2 ^ (n * 7)
              < 128 * 2 ^ (n * 7) := by
                exact (Nat.mul_lt_mul_right (Nat.two_pow_pos _)).mpr hd
            _ = 2 ^ (n * 7 + 7) := by
                rw [show (128 : Nat) = 2 ^ 7 by norm_num]; ring
            _ ≤ 2 ^ 64 := Nat.pow_le_pow_right (by norm_num) (by omega)
      have hacc : vint_acc file pos (n + 1) =
          vint_acc file pos n + (file.getD (pos + n) 0 &&& 0x7f) * 2 ^ (7 * n) := by
        rw [vint_acc, hterm]
        exact or_mul_two_pow_eq_add (7 * n) (by
          rw [ihv, hspecn]; exact hS)
      constructor
      · rw [hacc, ihv, hspecn]
        unfold vint_spec_value
        rw [hsum]
        rw [Nat.mod_eq_of_lt]
        · rw [hpow]; ring
        · have := hofd (n + 1)
          calc Nat.ofDigits 128 ((List.range n).map (fun j => file.getD (pos + j) 0 &&& 0x7f)) +
                128 ^ n * (file.getD (pos + n) 0 &&& 0x7f)
              = Nat.ofDigits 128
                  ((List.range (n + 1)).map (fun j => file.getD (pos + j) 0 &&& 0x7f)) := by
                rw [hsum]
            _ < 128 ^ (n + 1) := this
            _ ≤ 2 ^ 64 := by
                calc (128 : Nat) ^ (n + 1) = 2 ^ (7 * (n + 1)) := by
                      rw [show (128 : Nat) = 2 ^ 7 by norm_num, ← Nat.pow_mul]
                  _ ≤ 2 ^ 64 := Nat.pow_le_pow_right (by norm_num) (by omega)
      · intro h9'
        have h1 : vint_acc file pos n < 2 ^ (7 * n) := ihlt (by omega)
        have hmul : (file.getD (pos + n) 0 &&& 0x7f) * 2 ^ (7 * n) ≤ 127 * 2 ^ (7 * n) :=
          Nat.mul_le_mul_right _ (by omega)
        have hpow1 : (2 : Nat) ^ (7 * (n + 1)) = 128 * 2 ^ (7 * n) := by
          rw [show (128 : Nat) = 2 ^ 7 by norm_num, ← Nat.pow_add]
          ring_nf
        rw [hacc, hpow1]
        omega
    · -- n = 9: the shift by 63 truncates at the top bit of the accumulator
      have hn9 : n = 9 := by omega
      subst hn9
      have hterm : ((file.getD (pos + 9) 0 &&& 0x7f) <<< (9 * 7)) % 2 ^ 64 =
          ((file.getD (pos + 9) 0 &&& 0x7f) % 2) * 2 ^ 63 := by
        rw [Nat.shiftLeft_eq]
        rw [show (9 * 7 : Nat) = 63 by norm_num]
        rw [show (2 : Nat) ^ 64 = 2 * 2 ^ 63 by ring]
        exact Nat.mul_mod_mul_right _ _ _
      have h1 : vint_acc file pos 9 < 2 ^ 63 := by
        have := ihlt (by omega)
        simpa using this
      have hacc : vint_acc file pos 10 =
          vint_acc file pos 9 + ((file.getD (pos + 9) 0 &&& 0x7f) % 2) * 2 ^ 63 := by
        rw [vint_acc, hterm]
        exact or_mul_two_pow_eq_add 63 h1
      constructor
      · rw [hacc, ihv, hspecn]
        unfold vint_spec_value
        rw [hsum]
        have hS9 := hofd 9
        rw [show (128 : Nat) ^ 9 = 2 ^ 63 by norm_num] at hS9 ⊢
        set L := Nat.ofDigits 128 ((List.range 9).map (fun j => file.getD (pos + j) 0 &&& 0x7f)) with hLdef
        set d := file.getD (pos + 9) 0 &&& 0x7f with hddef
        have hdlt : d < 128 := hd
        have hdsplit : d = 2 * (d / 2) + d % 2 := by omega
        have hx : L + 2 ^ 63 * d = (L + d % 2 * 2 ^ 63) + (d / 2) * 2 ^ 64 := by
          conv_lhs => rw [hdsplit]
          have h64 : (2 : Nat) ^ 64 = 2 * 2 ^ 63 := by ring
          rw [h64]
          ring
        have hm2 : d % 2 ≤ 1 := by omega
        have hlt : L + d % 2 * 2 ^ 63 < 2 ^ 64 := by
          have h1 : d % 2 * 2 ^ 63 ≤ 2 ^ 63 := Nat.mul_le_mul_right _ hm2
          have h64 : (2 : Nat) ^ 64 = 2 * 2 ^ 63 := by ring
          omega
        rw [hx, Nat.add_mul_mod_self_right]
        exact (Nat.mod_eq_of_lt hlt).symm
      · intro h; omega

/-- The loop invariant of `read_vint_loop`: after consuming `j` bytes that
all carried the continuation bit, the loop continues at index `j` with the
accumulated value `vint_acc`. -/
theorem read_vint_unfold (file : List Nat) (pos : Nat) :
    ∀ j, j ≤ 10 →
    (∀ l, l < j → ∃ b, file.get? (pos + l) = some b ∧ b &&& 0x80 ≠ 0) →
    read_vint file pos =
      read_vint_loop file (10 - j) j (vint_acc file pos j) (pos + j) := by
  intro j
  induction j with
  | zero => intro _ _; simp [read_vint, MAX_VINT_SIZE, vint_acc]
  | succ j ih =>
    intro hj hcont
    rw [ih (by omega) (fun l hl => hcont l (by omega))]
    obtain ⟨b, hb, hbc⟩ := hcont j (by omega)
    have hfuel : 10 - j = (10 - (j + 1)) + 1 := by omega
    rw [hfuel]
    rw [read_vint_loop]
    rw [show read_u8 file (pos + j) = .ok (b, pos + j + 1) by
      simp only [read_u8, hb]]
    simp only []
    rw [if_neg (by simpa using hbc)]
    have hgd : file.getD (pos + j) 0 = b := by
      rw [List.getD_eq_getElem?_getD, ← List.get?_eq_getElem?, hb]
      rfl
    congr 1
    rw [vint_acc, hgd]

theorem read_vint_loop_consumed (file : List Nat) :
    ∀ (fuel i vint pos v n p : Nat), fuel + i = 10 →
    read_vint_loop file fuel i vint pos = .ok ((v, n), p) →
    i ≤ n ∧ n ≤ 10 ∧ p = pos + (n - i) ∧ (n = 10 ∨ i < n) := by
  intro fuel
  induction fuel with
  | zero =>
    intro i vint pos v n p hfi h
    simp [read_vint_loop, MAX_VINT_SIZE] at h
    obtain ⟨⟨_, hn⟩, hp⟩ := h
    omega
  | succ fuel ih =>
    intro i vint pos v n p hfi h
    rw [read_vint_loop] at h
    cases hu : read_u8 file pos with
    | error e => rw [hu] at h; simp at h
    | ok bp =>
      obtain ⟨b, pos1⟩ := bp
      rw [hu] at h
      simp only [] at h
      have hpos1 : pos1 = pos + 1 := by
        unfold read_u8 at hu
        cases hg : file.get? pos with
        | some c => rw [hg] at hu; simp at hu; omega
        | none => rw [hg] at hu; simp at hu
      split at h
      · simp at h
        obtain ⟨⟨_, hn⟩, hp⟩ := h
        omega
      · have := ih (i + 1) _ pos1 v n p (by omega) h
        omega

theorem read_vint_loop_error (file : List Nat) :
    ∀ (fuel i vint pos : Nat) (e : RErr),
    read_vint_loop file fuel i vint pos = .error e → e = .eof := by
  intro fuel
  induction fuel with
  | zero =>
    intro i vint pos e h
    simp [read_vint_loop] at h
  | succ fuel ih =>
    intro i vint pos e h
    rw [read_vint_loop] at h
    cases hu : read_u8 file pos with
    | error e2 =>
      rw [hu] at h
      simp at h
      subst h
      unfold read_u8 at hu
      cases hg : file.get? pos with
      | some c => rw [hg] at hu; simp at hu
      | none =>
        rw [hg] at hu
        simp only [Except.error.injEq] at hu
        exact hu.symm
    | ok bp =>
      obtain ⟨b, pos1⟩ := bp
      rw [hu] at h
      simp only [] at h
      split at h
      · simp at h
      · exact ih _ _ _ _ h

/-! ## Claim theorems -/

/-- C5: for every byte stream, `read_vint` reads at most 10 bytes,
accumulating each byte's low 7 bits in little-endian base-128 order
(`vint_spec_value`); it stops at the first byte without the continuation bit
and returns the value together with the number of bytes consumed; if all 10
bytes carry the continuation bit it stops anyway and returns the accumulated
value with `bytes_consumed = 10`; and it never returns a decoding error (its
only failure is the end-of-stream failure of a short read). -/
theorem c5_vint_codec :
    (∀ (file : List Nat) (pos i b : Nat), i < MAX_VINT_SIZE →
      (∀ j, j < i → ∃ bj, file.get? (pos + j) = some bj ∧ bj &&& 0x80 ≠ 0) →
      file.get? (pos + i) = some b → b &&& 0x80 = 0 →
      read_vint file pos =
        .ok ((vint_spec_value file pos (i + 1), i + 1), pos + (i + 1))) ∧
    (∀ (file : List Nat) (pos : Nat),
      (∀ j, j < MAX_VINT_SIZE → ∃ bj, file.get? (pos + j) = some bj ∧ bj &&& 0x80 ≠ 0) →
      read_vint file pos =
        .ok ((vint_spec_value file pos MAX_VINT_SIZE, MAX_VINT_SIZE), pos + MAX_VINT_SIZE)) ∧
    (∀ (file : List Nat) (pos v n p : Nat), read_vint file pos = .ok ((v, n), p) →
      1 ≤ n ∧ n ≤ MAX_VINT_SIZE ∧ p = pos + n) ∧
    (∀ (file : List Nat) (pos : Nat) (e : RErr), read_vint file pos = .error e → e = .eof) := by
  refine ⟨?_, ?_, ?_, ?_⟩
  · intro file pos i b hi hcont hb hstop
    have hmax : MAX_VINT_SIZE = 10 := rfl
    rw [hmax] at hi
    rw [read_vint_unfold file pos i (by omega) hcont]
    have hfuel : 10 - i = (10 - (i + 1)) + 1 := by omega
    rw [hfuel, read_vint_loop]
    rw [show read_u8 file (pos + i) = .ok (b, pos + i + 1) by
      simp only [read_u8, hb]]
    simp only []
    rw [if_pos hstop]
    have hgd : file.getD (pos + i) 0 = b := by
      rw [List.getD_eq_getElem?_getD, ← List.get?_eq_getElem?, hb]
      rfl
    have hacc : vint_acc file pos i ||| ((b &&& 0x7f) <<< (i * 7)) % 2 ^ 64 =
        vint_spec_value file pos (i + 1) := by
      rw [← hgd]
      rw [show vint_acc file pos i ||| ((file.getD (pos + i) 0 &&& 0x7f) <<< (i * 7)) % 2 ^ 64 =
          vint_acc file pos (i + 1) from rfl]
      exact (vint_acc_eq_spec file pos (i + 1) (by omega)).1
    rw [hacc, Nat.add_assoc]
  · intro file pos hcont
    have hmax : MAX_VINT_SIZE = 10 := rfl
    rw [hmax]
    rw [read_vint_unfold file pos 10 (by omega) (fun l hl => hcont l (by
      rw [hmax]; omega))]
    rw [show (10 : Nat) - 10 = 0 from rfl, read_vint_loop]
    rw [(vint_acc_eq_spec file pos 10 (by omega)).1]
    rfl
  · intro file pos v n p h
    unfold read_vint at h
    have hres := read_vint_loop_consumed file MAX_VINT_SIZE 0 0 pos v n p rfl h
    have hmax : MAX_VINT_SIZE = 10 := rfl
    omega
  · intro file pos e h
    unfold read_vint at h
    exact read_vint_loop_error file MAX_VINT_SIZE 0 0 pos e h

/-- Witness for C5: a two-byte vint `[0x85, 0x03]` decodes to
`5 + 3·128 = 389` with 2 bytes consumed, and a 10-byte all-continuation-bit
input decodes without error to the truncated `u64` accumulator with
`bytes_consumed = 10`. -/
theorem c5_vint_codec_witness :
    read_vint [0x85, 0x03] 0 = .ok ((vint_spec_value [0x85, 0x03] 0 2, 2), 0 + 2) ∧
    vint_spec_value [0x85, 0x03] 0 2 = 389 ∧
    read_vint [0xFF, 0xFF, 0xFF, 0xFF, 0xFF, 0xFF, 0xFF, 0xFF, 0xFF, 0xFF] 0 =
      .ok ((vint_spec_value [0xFF, 0xFF, 0xFF, 0xFF, 0xFF, 0xFF, 0xFF, 0xFF, 0xFF, 0xFF] 0
        MAX_VINT_SIZE, MAX_VINT_SIZE), 0 + MAX_VINT_SIZE) ∧
    vint_spec_value [0xFF, 0xFF, 0xFF, 0xFF, 0xFF, 0xFF, 0xFF, 0xFF, 0xFF, 0xFF] 0
      MAX_VINT_SIZE = 2 ^ 64 - 1 := by
  refine ⟨?_, by decide, ?_, by decide⟩
  · have h1 : (1 : Nat) < MAX_VINT_SIZE := by decide
    refine c5_vint_codec.1 [0x85, 0x03] 0 1 0x03 h1 ?_ rfl (by decide)
    intro j hj
    interval_cases j
    exact ⟨0x85, rfl, by decide⟩
  · refine c5_vint_codec.2.1 [0xFF, 0xFF, 0xFF, 0xFF, 0xFF, 0xFF, 0xFF, 0xFF, 0xFF, 0xFF] 0 ?_
    intro j hj
    have : j < 10 := hj
    interval_cases j <;> exact ⟨0xFF, rfl, by decide⟩

theorem copy_name_chunk_corrected_spec :
    ∀ (count : Nat) (orig : List Nat) (correction high_byte : Nat) (out res : List Nat),
    Rar15.copy_name_chunk_corrected orig correction high_byte count out = some res →
    res = out ++ (List.range count).map
      (fun j => ((orig.getD (out.length + j) 0 + correction) &&& 0xFF) |||
        (high_byte <<< 8)) := by
  intro count
  induction count with
  | zero =>
    intro orig corr high out res h
    simp [Rar15.copy_name_chunk_corrected] at h
    simp [← h]
  | succ n ih =>
    intro orig corr high out res h
    rw [Rar15.copy_name_chunk_corrected] at h
    cases hg : orig.get? out.length with
    | none => rw [hg] at h; simp at h
    | some low =>
      rw [hg] at h
      simp only [] at h
      cases hc : char_from_u32 (((low + corr) &&& 0xFF) ||| (high <<< 8)) with
      | none => rw [hc] at h; simp at h
      | some ch =>
        rw [hc] at h
        have hch : ch = ((low + corr) &&& 0xFF) ||| (high <<< 8) := by
          unfold char_from_u32 at hc
          split at hc <;> simp_all

        have hres := ih orig corr high (out ++ [ch]) res h
        have hgd : orig.getD (out.length + 0) 0 = low := by
          rw [Nat.add_zero, List.getD_eq_getElem?_getD, ← List.get?_eq_getElem?, hg]
          rfl
        rw [hres, List.range_succ_eq_map, List.map_cons, List.map_map, List.append_assoc]
        congr 1
        rw [List.singleton_append]
        congr 1
        · rw [hgd, hch]
        · apply List.map_congr_left
          intro j _
          simp only [Function.comp]
          have hidx : (out ++ [ch]).length + j = out.length + j.succ := by
            simp
            omega
          rw [hidx]

theorem copy_name_chunk_oob :
    ∀ (count : Nat) (orig out : List Nat), 0 < count →
    orig.length < out.length + count →
    Rar15.copy_name_chunk orig count out = none := by
  intro count
  induction count with
  | zero =>
    intro orig out h0 _
    exact absurd h0 (lt_irrefl 0)
  | succ n ih =>
    intro orig out _ hlen
    rw [Rar15.copy_name_chunk]
    cases hg : orig.get? out.length with
    | none => rfl
    | some c =>
      obtain ⟨hlt, _⟩ := List.get?_eq_some.mp hg
      simp only []
      cases n with
      | zero => exfalso; omega
      | succ m =>
        apply ih
        · omega
        · simp
          omega

theorem copy_name_chunk_corrected_oob :
    ∀ (count : Nat) (orig out : List Nat) (correction high_byte : Nat), 0 < count →
    orig.length < out.length + count →
    Rar15.copy_name_chunk_corrected orig correction high_byte count out = none := by
  intro count
  induction count with
  | zero =>
    intro orig out corr high h0 _
    exact absurd h0 (lt_irrefl 0)
  | succ n ih =>
    intro orig out corr high _ hlen
    rw [Rar15.copy_name_chunk_corrected]
    cases hg : orig.get? out.length with
    | none => rfl
    | some c =>
      obtain ⟨hlt, _⟩ := List.get?_eq_some.mp hg
      simp only []
      cases hc : char_from_u32 (((c + corr) &&& 0xFF) ||| (high <<< 8)) with
      | none => rfl
      | some ch =>
        cases n with
        | zero => exfalso; omega
        | succ m =>
          apply ih
          · omega
          · simp
            omega

/-- C2 (counterexample): on the concrete name `"abc" ++ [0] ++ program`
where the program's opcode-3 control byte is `L = 0x81` (top bit set,
`count = 1`) with correction byte `C = 1`, the decoder emits exactly
`count = L & 0x7f = 1` character — `"b"` — not the `count + 2 = 3`
characters the claim states (which would produce `"bcd"`). -/
theorem c2_name_chunk_correction_counterexample :
    Rar15.decode_file_name [97, 98, 99, 0, 0, 0xC0, 0x81, 0x01] = .ok [98] ∧
    ([98] : List Nat).length = 0x81 &&& 0x7f ∧
    Rar15.decode_file_name [97, 98, 99, 0, 0, 0xC0, 0x81, 0x01] ≠ .ok [98, 99, 100] := by
  have h : Rar15.decode_file_name [97, 98, 99, 0, 0, 0xC0, 0x81, 0x01] = .ok [98] := by
    simp +decide [Rar15.decode_file_name, Rar15.decode_rar_encoded_string, Rar15.run_decode,
      Rar15.run_instructions, Rar15.exec_instruction, Rar15.instruction_new,
      Rar15.copy_name_instruction_new, Rar15.copy_name_chunk, Rar15.copy_name_chunk_corrected,
      char_from_u32, is_scalar_value, List.findIdx?]
  exact ⟨h, by decide, by rw [h]; decide⟩

/-- C2 (amended): when opcode 3 reads a control byte `L` whose top bit is
set, the decoder sets `count = L & 0x7f`, reads one correction byte `C`, and
for each of the next `count` output positions (not `count + 2`) takes the
original-name byte at index equal to the number of characters emitted so
far, computes `(original_byte + C) & 0xFF`, ORs it with `high_byte << 8`,
and emits the result as one character. -/
theorem c2_name_chunk_correction_amended :
    ∀ (orig : List Nat) (high_byte L C : Nat) (bytecode out bc' out' : List Nat),
    L &&& 0x80 ≠ 0 →
    Rar15.exec_instruction orig high_byte 3 (L :: C :: bytecode) out = some (bc', out') →
    Rar15.copy_name_instruction_new L = .chunkWithCorrection (L &&& 0x7f) ∧
    bc' = bytecode ∧
    out' = out ++ (List.range (L &&& 0x7f)).map
      (fun j => ((orig.getD (out.length + j) 0 + C) &&& 0xFF) ||| (high_byte <<< 8)) := by
  intro orig high_byte L C bytecode out bc' out' hL hexec
  have hcni : Rar15.copy_name_instruction_new L =
      .chunkWithCorrection (L &&& 0x7f) := by
    unfold Rar15.copy_name_instruction_new
    rw [if_pos hL]
  refine ⟨hcni, ?_⟩
  unfold Rar15.exec_instruction at hexec
  simp only [hcni] at hexec
  obtain ⟨o, ho, hpair⟩ := Option.map_eq_some'.mp hexec
  obtain ⟨h1, h2⟩ := Prod.mk.injEq .. ▸ hpair
  refine ⟨h1.symm, ?_⟩
  rw [← h2]
  exact copy_name_chunk_corrected_spec (L &&& 0x7f) orig C high_byte out o ho

/-- Witness for the amended C2: with original name `"abc"`, `L = 0x81`
(`count = 1`), correction `C = 1` and high byte `0`, the opcode emits the
single character `(97 + 1) & 0xFF = 98`. -/
theorem c2_name_chunk_correction_amended_witness :
    Rar15.copy_name_instruction_new 0x81 = .chunkWithCorrection (0x81 &&& 0x7f) ∧
    ([] : List Nat) = [] ∧
    [98] = ([] : List Nat) ++ (List.range (0x81 &&& 0x7f)).map
      (fun j => (([97, 98, 99].getD (([] : List Nat).length + j) 0 + 0x01) &&& 0xFF) |||
        (0 <<< 8)) :=
  c2_name_chunk_correction_amended [97, 98, 99] 0 0x81 0x01 [] [] [] [98]
    (by decide) (by decide)

/-- C7: legacy filename decoding never panics (the embedding is a total
function); a decode failure inside the byte-code virtual machine falls back
to exposing the original raw bytes unchanged, and both an out-of-bounds
index into the original name and an invalid Unicode scalar value cause the
decode to fail. -/
theorem c7_filename_decode_safety :
    (∀ (file_name : List Nat) (i : Nat),
      file_name.findIdx? (· = 0) = some i →
      ¬ file_name.length = i + 1 →
      Rar15.decode_rar_encoded_string file_name i = none →
      Rar15.decode_file_name file_name = .error file_name) ∧
    (∀ (orig out : List Nat) (count : Nat), 0 < count →
      orig.length < out.length + count →
      Rar15.copy_name_chunk orig count out = none) ∧
    (∀ (orig out : List Nat) (correction high_byte count : Nat), 0 < count →
      orig.length < out.length + count →
      Rar15.copy_name_chunk_corrected orig correction high_byte count out = none) ∧
    (∀ v : Nat, ¬ is_scalar_value v → char_from_u32 v = none) := by
  refine ⟨?_, ?_, ?_, ?_⟩
  · intro fn i h1 h2 h3
    unfold Rar15.decode_file_name
    rw [h1]
    simp only []
    rw [if_neg h2, h3]
  · intro orig out count h0 hlen
    exact copy_name_chunk_oob count orig out h0 hlen
  · intro orig out corr high count h0 hlen
    exact copy_name_chunk_corrected_oob count orig out corr high h0 hlen
  · intro v hv
    unfold char_from_u32
    rw [if_neg hv]

/-- Witness for C7: a name whose program copies 7 bytes out of a 1-byte
original fails and surfaces the untouched raw bytes; out-of-bounds copies
and the surrogate `0xD800` fail as claimed. -/
theorem c7_filename_decode_safety_witness :
    Rar15.decode_file_name [65, 0, 0, 0xC0, 0x05] = .error [65, 0, 0, 0xC0, 0x05] ∧
    Rar15.copy_name_chunk [65] 2 [66] = none ∧
    Rar15.copy_name_chunk_corrected [65] 5 7 2 [66] = none ∧
    char_from_u32 0xD800 = none :=
  ⟨c7_filename_decode_safety.1 [65, 0, 0, 0xC0, 0x05] 1 (by decide) (by decide)
      (by
        simp +decide [Rar15.decode_rar_encoded_string, Rar15.run_decode,
          Rar15.run_instructions, Rar15.exec_instruction, Rar15.instruction_new,
          Rar15.copy_name_instruction_new, Rar15.copy_name_chunk,
          Rar15.copy_name_chunk_corrected, char_from_u32, is_scalar_value]),
    c7_filename_decode_safety.2.1 [65] [66] 2 (by decide) (by decide),
    c7_filename_decode_safety.2.2.1 [65] [66] 5 7 2 (by decide) (by decide),
    c7_filename_decode_safety.2.2.2 0xD800 (by decide)⟩

/-- C9: the Windows time codec computes the Unix timestamp in nanoseconds as
ticks × 100 minus the fixed offset of 11,644,473,600 seconds and converts it
to calendar time; input `0` yields 1601-01-01T00:00:00Z and input
`128166372003061629` yields 2007-02-22T17:00:00.3061629Z; an out-of-range
result yields a failure carrying the original 64-bit value. -/
theorem c9_windows_filetime :
    parse_windows_filetime 0 = .ok ⟨1601, 1, 1, 0, 0, 0, 0⟩ ∧
    parse_windows_filetime 128166372003061629 = .ok ⟨2007, 2, 22, 17, 0, 0, 306162900⟩ ∧
    (∀ ft : Nat, parse_windows_filetime ft =
      from_unix_timestamp_nanos ((ft : Int) * 100 - 11644473600 * 1000000000)) ∧
    (∀ (file : List Nat) (pos ft p : Nat), read_u64 file pos = .ok (ft, p) →
      parse_windows_filetime ft = .error () →
      read_windows_time file pos = .ok (.error ft, p)) := by
  refine ⟨by decide, by decide, fun ft => rfl, ?_⟩
  intro file pos ft p h hconv
  unfold read_windows_time
  rw [h]
  simp [bind, Except.bind, hconv, Except.mapError, pure, Except.pure]

/-- Witness for C9: the all-ones 64-bit FILETIME is out of range, and the
reader surfaces the failure carrying the original raw value. -/
theorem c9_windows_filetime_witness :
    read_windows_time [0xFF, 0xFF, 0xFF, 0xFF, 0xFF, 0xFF, 0xFF, 0xFF] 0 =
      .ok (.error 18446744073709551615, 8) :=
  c9_windows_filetime.2.2.2 [0xFF, 0xFF, 0xFF, 0xFF, 0xFF, 0xFF, 0xFF, 0xFF] 0
    18446744073709551615 8 (by decide) (by decide)

/-- C10: the Unix timestamp codecs are total in their success branch: every
32-bit seconds value and every 64-bit nanoseconds value converts to a
calendar time inside the supported range, so the error branch is
unreachable. -/
theorem c10_unix_codecs_total :
    (∀ s : Nat, s < 2 ^ 32 → ∃ t, parse_unix_timestamp_sec s = .ok t) ∧
    (∀ n : Nat, n < 2 ^ 64 → ∃ t, parse_unix_timestamp_ns n = .ok t) := by
  have hminS : MIN_UNIX_SEC = -377705116800 := by decide
  have hmaxS : MAX_UNIX_SEC = 253402300799 := by decide
  have hminN : MIN_UNIX_NS = -377705116800000000000 := by
    rw [MIN_UNIX_NS, hminS]; norm_num
  have hmaxN : MAX_UNIX_NS = 253402300799999999999 := by
    rw [MAX_UNIX_NS, hmaxS]; norm_num
  constructor
  · intro s hs
    refine ⟨datetime_of_unix_nanos ((s : Int) * 1000000000), ?_⟩
    unfold parse_unix_timestamp_sec from_unix_timestamp
    rw [if_neg]
    push_neg
    constructor <;> omega
  · intro n hn
    refine ⟨datetime_of_unix_nanos (n : Int), ?_⟩
    unfold parse_unix_timestamp_ns from_unix_timestamp_nanos
    rw [if_neg]
    push_neg
    constructor <;> omega

/-- Witness for C10: the maximal 32-bit seconds value and the maximal 64-bit
nanoseconds value both convert successfully. -/
theorem c10_unix_codecs_total_witness :
    (∃ t, parse_unix_timestamp_sec 4294967295 = .ok t) ∧
    (∃ t, parse_unix_timestamp_ns 18446744073709551615 = .ok t) :=
  ⟨c10_unix_codecs_total.1 4294967295 (by norm_num),
    c10_unix_codecs_total.2 18446744073709551615 (by norm_num)⟩

/-- C8: for every valid UTF-8 input to the high-ASCII unmapper, if the
decoded string contains no sentinel the output equals the decoded input
unchanged; if it contains the sentinel, every sentinel occurrence is removed
and every code point in `0xE080..0xE100` is shifted down by `0xE000`, all
other code points kept as-is (`unmap_claim_char`). -/
theorem c8_unmap_high_ascii :
    (∀ (buf s : List Nat), utf8_decode buf = some s →
      s.contains MAPPED_STRING_MARK = false →
      unmap_high_ascii_chars buf = .ok s) ∧
    (∀ (buf s : List Nat), utf8_decode buf = some s →
      s.contains MAPPED_STRING_MARK = true →
      unmap_high_ascii_chars buf = .ok (s.filterMap unmap_claim_char)) := by
  have hfn : ∀ c : Nat,
      (if 0xE080 ≤ c ∧ c < 0xE100 then char_from_u32 (c - MAP_CHAR)
        else if c = MAPPED_STRING_MARK then none else some c) = unmap_claim_char c := by
    intro c
    unfold unmap_claim_char
    by_cases hr : 0xE080 ≤ c ∧ c < 0xE100
    · have hne : ¬ c = MAPPED_STRING_MARK := by
        unfold MAPPED_STRING_MARK
        omega
      rw [if_pos hr, if_neg hne, if_pos hr]
      unfold char_from_u32
      rw [if_pos]
      unfold is_scalar_value MAP_CHAR
      constructor <;> omega
    · rw [if_neg hr]
      by_cases he : c = MAPPED_STRING_MARK
      · rw [if_pos he, if_pos he]
      · rw [if_neg he, if_neg he, if_neg hr]
  constructor
  · intro buf s h1 h2
    unfold unmap_high_ascii_chars
    rw [h1]
    simp only []
    rw [if_neg (by rw [h2]; simp)]
  · intro buf s h1 h2
    unfold unmap_high_ascii_chars
    rw [h1]
    simp only [h2, if_true]
    congr 1
    exact List.filterMap_congr (fun c _ => hfn c)

/-- Witness for C8: the repository's own fixture — the UTF-8 bytes of
`U+FFFE U+E0C6` — unmaps to the single code point `0xC6` (`Æ`), and a plain
ASCII byte passes through unchanged. -/
theorem c8_unmap_high_ascii_witness :
    unmap_high_ascii_chars [0xEF, 0xBF, 0xBE, 0xEE, 0x83, 0x86] =
      .ok ([0xFFFE, 0xE0C6].filterMap unmap_claim_char) ∧
    [0xFFFE, 0xE0C6].filterMap unmap_claim_char = [0xC6] ∧
    unmap_high_ascii_chars [0x41] = .ok [0x41] :=
  ⟨c8_unmap_high_ascii.2 [0xEF, 0xBF, 0xBE, 0xEE, 0x83, 0x86] [0xFFFE, 0xE0C6]
      (by decide) (by decide),
    by decide,
    c8_unmap_high_ascii.1 [0x41] [0x41] (by decide) (by decide)⟩

/-- Counterexample for C1: the RAR50 block iterator performs no bounds
validation.  On the 9-byte stream `oversize50_file` it structurally parses a
block whose `offset + header_size = 10` and `offset + full_size = 16393` both
exceed the file size 9, yet the iterator yields the block as valid (`Ok`) and
advances `next_offset` to 16393 instead of yielding a corrupt-header
error. -/
theorem c1_bounds_validation_counterexample :
    Rar50.block_read oversize50_file 0 = .ok (oversize50_block, 9) ∧
    oversize50_file.length = 9 ∧
    9 < oversize50_block.offset + oversize50_block.header_size ∧
    9 < oversize50_block.offset + oversize50_block.full_size ∧
    Rar50.next oversize50_file (Rar50.block_iterator_new 0 oversize50_file.length) =
      some (.ok oversize50_block, ⟨9, 16393, false⟩) := by
  refine ⟨by decide, by decide, by decide, by decide, ?_⟩
  decide

/-- C1 (amended): only the legacy (RAR14) and mid-life (RAR15) block
iterators validate the bounds invariants — whenever a structurally parsed
block has `size = 0`, or `offset + header_size` exceeding the file size, or
`offset + size` exceeding the file size, they yield a corrupt-header error
(the RAR14 iterator having already latched `has_read_main_block` in the main
case).  The modern (RAR50) iterator performs no such validation: every
structurally parsed block is yielded as valid and `next_offset` is advanced
by its full size regardless of the file size. -/
theorem c1_bounds_validation_amended :
    (∀ (file : List Nat) (s : Rar15.IterState) (b : Rar15.Block) (p : Nat),
      Rar15.block_read file s.nextOffset = .ok (b, p) →
      (b.size = 0 ∨ s.fileSize < b.offset + b.header_size ∨
        s.fileSize < b.offset + b.size) →
      Rar15.read_block file s = (.error .corruptHeader, s)) ∧
    (∀ (file : List Nat) (s : Rar14.IterState) (mb : Rar14.MainBlock) (p : Nat),
      s.hasReadMainBlock = false →
      Rar14.main_block_read file s.nextOffset = .ok (mb, p) →
      ((Rar14.Block.main mb).size = 0 ∨
        s.fileSize < (Rar14.Block.main mb).offset + (Rar14.Block.main mb).header_size ∨
        s.fileSize < (Rar14.Block.main mb).offset + (Rar14.Block.main mb).size) →
      Rar14.read_block file s =
        (.error .corruptHeader, { s with hasReadMainBlock := true })) ∧
    (∀ (file : List Nat) (s : Rar14.IterState) (fb : Rar14.FileBlock) (p : Nat),
      s.hasReadMainBlock = true →
      Rar14.file_block_read file s.nextOffset = .ok (fb, p) →
      ((Rar14.Block.file fb).size = 0 ∨
        s.fileSize < (Rar14.Block.file fb).offset + (Rar14.Block.file fb).header_size ∨
        s.fileSize < (Rar14.Block.file fb).offset + (Rar14.Block.file fb).size) →
      Rar14.read_block file s = (.error .corruptHeader, s)) ∧
    (∀ (file : List Nat) (s : Rar50.IterState) (b : Rar50.Block) (p : Nat),
      Rar50.block_read file s.nextOffset = .ok (b, p) →
      Rar50.read_block file s =
        (.ok b, { s with
          nextOffset := (b.offset + b.full_size) % 2 ^ 64,
          endOfArchiveReached := s.endOfArchiveReached || b.kind.isEndArchive })) := by
  refine ⟨?_, ?_, ?_, ?_⟩
  · intro file s b p hb hviol
    unfold Rar15.read_block
    rw [hb]
    simp only []
    rw [if_pos hviol]
  · intro file s mb p hm hb hviol
    unfold Rar14.read_block Rar14.check_and_advance
    rw [hm]
    simp only [Bool.false_eq_true, if_false]
    rw [hb]
    simp only []
    rw [if_pos hviol]
  · intro file s fb p hm hb hviol
    unfold Rar14.read_block Rar14.check_and_advance
    rw [hm]
    simp only [if_true]
    rw [hb]
    simp only []
    rw [if_pos hviol]
  · intro file s b p hb
    unfold Rar50.read_block
    rw [hb]
    simp only []
    cases hk : b.kind.isEndArchive
    · simp only [hk, Bool.false_eq_true, if_false, Bool.or_false]
    · simp only [hk, if_true, Bool.or_true]

/-- Witness for C1 (amended): concrete streams for all four cases — the
RAR15 and RAR14 iterators reject zero-size blocks as corrupt headers, the
RAR14 main case flips `has_read_main_block` first, and the RAR50 iterator
accepts the oversized block of `oversize50_file`. -/
theorem c1_bounds_validation_amended_witness :
    Rar15.read_block corrupt15_file (Rar15.block_iterator_new corrupt15_file 0) =
      (.error .corruptHeader, ⟨7, 0, false⟩) ∧
    Rar14.read_block corrupt14_file (Rar14.block_iterator_new corrupt14_file 0) =
      (.error .corruptHeader, ⟨3, 0, true⟩) ∧
    Rar14.read_block corrupt14_file_block_file (⟨21, 0, true⟩ : Rar14.IterState) =
      (.error .corruptHeader, ⟨21, 0, true⟩) ∧
    Rar50.read_block oversize50_file (Rar50.block_iterator_new 0 9) =
      (.ok oversize50_block, ⟨9, 16393, false⟩) :=
  ⟨c1_bounds_validation_amended.1 corrupt15_file ⟨7, 0, false⟩ corrupt15_block 7
      (by decide) (by decide),
    c1_bounds_validation_amended.2.1 corrupt14_file ⟨3, 0, false⟩ ⟨0, 0, 7⟩ 3
      rfl (by decide) (by decide),
    c1_bounds_validation_amended.2.2.1 corrupt14_file_block_file ⟨21, 0, true⟩
      ⟨0, 0, 0, 0, 0, 0, .error 0, 0, 10, 0, none, .ascii []⟩ 21
      rfl (by decide) (by decide),
    c1_bounds_validation_amended.2.2.2 oversize50_file ⟨9, 0, false⟩ oversize50_block 9
      (by decide)⟩

/-! ## Iterator helper lemmas: error results leave the state in place -/

/-- A RAR15 `read_block` error leaves the iterator state unchanged. -/
theorem rar15_read_block_error_state {file : List Nat} {s s' : Rar15.IterState}
    {e : RarError} (h : Rar15.read_block file s = (.error e, s')) : s' = s := by
  unfold Rar15.read_block at h
  split at h
  · exact ((Prod.ext_iff.mp h).2).symm
  · split at h
    · exact ((Prod.ext_iff.mp h).2).symm
    · simp [Prod.ext_iff] at h

/-- A RAR15 `next` error leaves the iterator state unchanged. -/
theorem rar15_next_error_state {file : List Nat} {s s' : Rar15.IterState}
    {e : RarError} (h : Rar15.next file s = some (.error e, s')) : s' = s := by
  unfold Rar15.next at h
  split at h
  · exact absurd h (by simp)
  · split at h
    · exact absurd h (by simp)
    · exact rar15_read_block_error_state (Option.some.inj h)

/-- A RAR50 `read_block` error leaves the iterator state unchanged. -/
theorem rar50_read_block_error_state {file : List Nat} {s s' : Rar50.IterState}
    {e : RErr} (h : Rar50.read_block file s = (.error e, s')) : s' = s := by
  unfold Rar50.read_block at h
  split at h
  · exact ((Prod.ext_iff.mp h).2).symm
  · simp [Prod.ext_iff] at h

/-- A RAR50 `next` error leaves the iterator state unchanged. -/
theorem rar50_next_error_state {file : List Nat} {s s' : Rar50.IterState}
    {e : RErr} (h : Rar50.next file s = some (.error e, s')) : s' = s := by
  unfold Rar50.next at h
  split at h
  · exact absurd h (by simp)
  · split at h
    · exact absurd h (by simp)
    · exact rar50_read_block_error_state (Option.some.inj h)

/-- A RAR14 `read_block` error leaves `file_size` and `next_offset` unchanged
(only `has_read_main_block` may have been latched). -/
theorem rar14_read_block_error_offsets {file : List Nat} {s s' : Rar14.IterState}
    {e : RarError} (h : Rar14.read_block file s = (.error e, s')) :
    s'.fileSize = s.fileSize ∧ s'.nextOffset = s.nextOffset := by
  unfold Rar14.read_block Rar14.check_and_advance at h
  dsimp only [] at h
  split at h
  · split at h
    · obtain ⟨-, h2⟩ := Prod.ext_iff.mp h
      subst h2
      exact ⟨rfl, rfl⟩
    · split at h
      · obtain ⟨-, h2⟩ := Prod.ext_iff.mp h
        subst h2
        exact ⟨rfl, rfl⟩
      · simp [Prod.ext_iff] at h
  · split at h
    · obtain ⟨-, h2⟩ := Prod.ext_iff.mp h
      subst h2
      exact ⟨rfl, rfl⟩
    · split at h
      · obtain ⟨-, h2⟩ := Prod.ext_iff.mp h
        subst h2
        exact ⟨rfl, rfl⟩
      · simp [Prod.ext_iff] at h

/-- A RAR14 `next` error leaves `file_size` and `next_offset` unchanged. -/
theorem rar14_next_error_offsets {file : List Nat} {s s' : Rar14.IterState}
    {e : RarError} (h : Rar14.next file s = some (.error e, s')) :
    s'.fileSize = s.fileSize ∧ s'.nextOffset = s.nextOffset := by
  unfold Rar14.next at h
  split at h
  · exact absurd h (by simp)
  · exact rar14_read_block_error_offsets (Option.some.inj h)

/-- Once the main block has been read, a RAR14 `read_block` error leaves the
whole iterator state unchanged. -/
theorem rar14_read_block_error_file_state {file : List Nat} {s s' : Rar14.IterState}
    {e : RarError} (hm : s.hasReadMainBlock = true)
    (h : Rar14.read_block file s = (.error e, s')) : s' = s := by
  unfold Rar14.read_block Rar14.check_and_advance at h
  dsimp only [] at h
  split at h
  · split at h
    · exact ((Prod.ext_iff.mp h).2).symm
    · split at h
      · exact ((Prod.ext_iff.mp h).2).symm
      · simp [Prod.ext_iff] at h
  · rename_i hmb
    exact absurd hm hmb

/-- Once the main block has been read, a RAR14 `next` error leaves the whole
iterator state unchanged. -/
theorem rar14_next_error_file_state {file : List Nat} {s s' : Rar14.IterState}
    {e : RarError} (hm : s.hasReadMainBlock = true)
    (h : Rar14.next file s = some (.error e, s')) : s' = s := by
  unfold Rar14.next at h
  split at h
  · exact absurd h (by simp)
  · exact rar14_read_block_error_file_state hm (Option.some.inj h)

/-- If a RAR15 `next` call yields an item without moving the state, every
later call yields the same item again. -/
theorem rar15_nth_item_fixed {file : List Nat} {s : Rar15.IterState}
    {r : Except RarError Rar15.Block} (h : Rar15.next file s = some (r, s)) :
    ∀ n, Rar15.nth_item file s n = some (r, s) := by
  intro n
  induction n with
  | zero => exact h
  | succ n ih =>
    have heq : Rar15.nth_item file s (n + 1) =
        match Rar15.next file s with
        | none => none
        | some (_, s2) => Rar15.nth_item file s2 n := rfl
    rw [heq, h]
    exact ih

/-- If a RAR50 `next` call yields an item without moving the state, every
later call yields the same item again. -/
theorem rar50_nth_item_fixed {file : List Nat} {s : Rar50.IterState}
    {r : Except RErr Rar50.Block} (h : Rar50.next file s = some (r, s)) :
    ∀ n, Rar50.nth_item file s n = some (r, s) := by
  intro n
  induction n with
  | zero => exact h
  | succ n ih =>
    have heq : Rar50.nth_item file s (n + 1) =
        match Rar50.next file s with
        | none => none
        | some (_, s2) => Rar50.nth_item file s2 n := rfl
    rw [heq, h]
    exact ih

/-- If a RAR14 `next` call yields an item without moving the state, every
later call yields the same item again. -/
theorem rar14_nth_item_fixed {file : List Nat} {s : Rar14.IterState}
    {r : Except RarError Rar14.Block} (h : Rar14.next file s = some (r, s)) :
    ∀ n, Rar14.nth_item file s n = some (r, s) := by
  intro n
  induction n with
  | zero => exact h
  | succ n ih =>
    have heq : Rar14.nth_item file s (n + 1) =
        match Rar14.next file s with
        | none => none
        | some (_, s2) => Rar14.nth_item file s2 n := rfl
    rw [heq, h]
    exact ih

/-- Counterexample for C3: yielding an error does not transition any iterator
to a Done state.  On `sneaky14_file` the RAR14 iterator yields a
corrupt-header error and then a *valid file block* (the error latched
`has_read_main_block`, so the retry at the same offset parses a file block);
on `corrupt15_file` the RAR15 iterator yields the identical corrupt-header
error again on the very next call instead of yielding nothing. -/
theorem c3_error_terminal_counterexample :
    Rar14.nth_item sneaky14_file (Rar14.block_iterator_new sneaky14_file 0) 0 =
      some (.error .corruptHeader, ⟨22, 0, true⟩) ∧
    Rar14.nth_item sneaky14_file (Rar14.block_iterator_new sneaky14_file 0) 1 =
      some (.ok (.file sneaky14_block), ⟨22, 21, true⟩) ∧
    Rar15.nth_item corrupt15_file (Rar15.block_iterator_new corrupt15_file 0) 0 =
      some (.error .corruptHeader, ⟨7, 0, false⟩) ∧
    Rar15.nth_item corrupt15_file (Rar15.block_iterator_new corrupt15_file 0) 1 =
      some (.error .corruptHeader, ⟨7, 0, false⟩) :=
  ⟨by decide, by decide, by decide, by decide⟩

/-- C3 (amended): no iterator has a Done state for errors.  A RAR15 or RAR50
error leaves the iterator state unchanged, so every subsequent call yields
the identical error again.  A RAR14 error leaves `file_size` and
`next_offset` unchanged but may latch `has_read_main_block`; once that flag
is set, an error likewise repeats identically forever. -/
theorem c3_error_state_amended :
    (∀ (file : List Nat) (s s' : Rar15.IterState) (e : RarError),
      Rar15.next file s = some (.error e, s') →
      s' = s ∧ ∀ n, Rar15.nth_item file s n = some (.error e, s)) ∧
    (∀ (file : List Nat) (s s' : Rar50.IterState) (e : RErr),
      Rar50.next file s = some (.error e, s') →
      s' = s ∧ ∀ n, Rar50.nth_item file s n = some (.error e, s)) ∧
    (∀ (file : List Nat) (s s' : Rar14.IterState) (e : RarError),
      Rar14.next file s = some (.error e, s') →
      s'.fileSize = s.fileSize ∧ s'.nextOffset = s.nextOffset) ∧
    (∀ (file : List Nat) (s s' : Rar14.IterState) (e : RarError),
      s.hasReadMainBlock = true →
      Rar14.next file s = some (.error e, s') →
      s' = s ∧ ∀ n, Rar14.nth_item file s n = some (.error e, s)) := by
  refine ⟨?_, ?_, ?_, ?_⟩
  · intro file s s' e h
    have hs := rar15_next_error_state h
    subst hs
    exact ⟨rfl, rar15_nth_item_fixed h⟩
  · intro file s s' e h
    have hs := rar50_next_error_state h
    subst hs
    exact ⟨rfl, rar50_nth_item_fixed h⟩
  · intro file s s' e h
    exact rar14_next_error_offsets h
  · intro file s s' e hm h
    have hs := rar14_next_error_file_state hm h
    subst hs
    exact ⟨rfl, rar14_nth_item_fixed h⟩

/-- Witness for C3 (amended): the corrupt fixtures repeat their error on
arbitrarily late calls, and the RAR14 main-block failure keeps `file_size`
and `next_offset` in place. -/
theorem c3_error_state_amended_witness :
    Rar15.nth_item corrupt15_file ⟨7, 0, false⟩ 5 =
      some (.error .corruptHeader, ⟨7, 0, false⟩) ∧
    Rar50.nth_item eof50_file ⟨1, 0, false⟩ 3 = some (.error .eof, ⟨1, 0, false⟩) ∧
    ((⟨3, 0, true⟩ : Rar14.IterState).fileSize =
        (⟨3, 0, false⟩ : Rar14.IterState).fileSize ∧
      (⟨3, 0, true⟩ : Rar14.IterState).nextOffset =
        (⟨3, 0, false⟩ : Rar14.IterState).nextOffset) ∧
    Rar14.nth_item corrupt14_file_block_file ⟨21, 0, true⟩ 4 =
      some (.error .corruptHeader, ⟨21, 0, true⟩) :=
  ⟨(c3_error_state_amended.1 corrupt15_file ⟨7, 0, false⟩ ⟨7, 0, false⟩
      .corruptHeader (by decide)).2 5,
    (c3_error_state_amended.2.1 eof50_file ⟨1, 0, false⟩ ⟨1, 0, false⟩
      .eof (by decide)).2 3,
    c3_error_state_amended.2.2.1 corrupt14_file ⟨3, 0, false⟩ ⟨3, 0, true⟩
      .corruptHeader (by decide),
    (c3_error_state_amended.2.2.2 corrupt14_file_block_file ⟨21, 0, true⟩
      ⟨21, 0, true⟩ .corruptHeader rfl (by decide)).2 4⟩

/-! ## Iterator helper lemmas: progress of successful reads -/

/-- Splitting a successful `Except` bind into its two successful stages. -/
theorem except_bind_ok {ε α β : Type} {ma : Except ε α} {f : α → Except ε β}
    {b : β} (h : ma >>= f = .ok b) : ∃ a, ma = .ok a ∧ f a = .ok b := by
  cases ma with
  | error e =>
    rw [show (Except.error e : Except ε α) >>= f = .error e from rfl] at h
    exact absurd h (by simp)
  | ok a => exact ⟨a, rfl, h⟩

/-- A successfully parsed RAR15 block records the cursor it was read at as
its `offset`. -/
theorem rar15_block_read_offset {file : List Nat} {pos : Nat} {b : Rar15.Block}
    {p : Nat} (h : Rar15.block_read file pos = .ok (b, p)) : b.offset = pos := by
  unfold Rar15.block_read at h
  obtain ⟨⟨a1, p1⟩, -, h⟩ := except_bind_ok h
  obtain ⟨⟨a2, p2⟩, -, h⟩ := except_bind_ok h
  obtain ⟨⟨a3, p3⟩, -, h⟩ := except_bind_ok h
  obtain ⟨⟨a4, p4⟩, -, h⟩ := except_bind_ok h
  dsimp only [] at h
  repeat' split at h
  all_goals
    obtain ⟨⟨a5, p5⟩, -, h⟩ := except_bind_ok h
  all_goals
    simp only [pure, Except.pure, Except.ok.injEq, Prod.mk.injEq] at h
  all_goals
    rw [← h.1]

/-- A successfully parsed RAR14 main block records the cursor it was read at
as its `offset`. -/
theorem rar14_main_block_read_offset {file : List Nat} {pos : Nat}
    {b : Rar14.MainBlock} {p : Nat}
    (h : Rar14.main_block_read file pos = .ok (b, p)) : b.offset = pos := by
  unfold Rar14.main_block_read at h
  obtain ⟨⟨a1, p1⟩, -, h⟩ := except_bind_ok h
  obtain ⟨⟨a2, p2⟩, -, h⟩ := except_bind_ok h
  simp only [pure, Except.pure, Except.ok.injEq, Prod.mk.injEq] at h
  rw [← h.1]

/-- A successfully parsed RAR14 file block records the cursor it was read at
as its `offset`. -/
theorem rar14_file_block_read_offset {file : List Nat} {pos : Nat}
    {b : Rar14.FileBlock} {p : Nat}
    (h : Rar14.file_block_read file pos = .ok (b, p)) : b.offset = pos := by
  unfold Rar14.file_block_read at h
  obtain ⟨⟨a1, p1⟩, -, h⟩ := except_bind_ok h
  obtain ⟨⟨a2, p2⟩, -, h⟩ := except_bind_ok h
  obtain ⟨⟨a3, p3⟩, -, h⟩ := except_bind_ok h
  obtain ⟨⟨a4, p4⟩, -, h⟩ := except_bind_ok h
  obtain ⟨⟨a5, p5⟩, -, h⟩ := except_bind_ok h
  obtain ⟨⟨a6, p6⟩, -, h⟩ := except_bind_ok h
  obtain ⟨⟨a7, p7⟩, -, h⟩ := except_bind_ok h
  obtain ⟨⟨a8, p8⟩, -, h⟩ := except_bind_ok h
  obtain ⟨⟨a9, p9⟩, -, h⟩ := except_bind_ok h
  obtain ⟨⟨a10, p10⟩, -, h⟩ := except_bind_ok h
  dsimp only [] at h
  split at h
  · obtain ⟨⟨a11, p11⟩, -, h⟩ := except_bind_ok h
    obtain ⟨⟨a12, p12⟩, -, h⟩ := except_bind_ok h
    obtain ⟨⟨a13, p13⟩, -, h⟩ := except_bind_ok h
    obtain ⟨⟨a14, p14⟩, -, h⟩ := except_bind_ok h
    simp only [pure, Except.pure, Except.ok.injEq, Prod.mk.injEq] at h
    rw [← h.1]
  · obtain ⟨⟨a11, p11⟩, -, h⟩ := except_bind_ok h
    obtain ⟨⟨a12, p12⟩, -, h⟩ := except_bind_ok h
    simp only [pure, Except.pure, Except.ok.injEq, Prod.mk.injEq] at h
    rw [← h.1]

/-- A RAR15 block successfully yielded by `read_block` strictly advances
`next_offset`, keeps it within `file_size` and preserves `file_size`. -/
theorem rar15_read_block_ok_progress {file : List Nat} {s s' : Rar15.IterState}
    {b : Rar15.Block} (h : Rar15.read_block file s = (.ok b, s')) :
    s.nextOffset < s'.nextOffset ∧ s'.nextOffset ≤ s.fileSize ∧
      s'.fileSize = s.fileSize := by
  unfold Rar15.read_block at h
  dsimp only [] at h
  split at h
  · simp [Prod.ext_iff] at h
  · rename_i block snd hbr
    split at h
    · simp [Prod.ext_iff] at h
    · rename_i hviol
      push_neg at hviol
      obtain ⟨hv1, hv2, hv3⟩ := hviol
      rw [Prod.ext_iff] at h
      dsimp only [] at h
      obtain ⟨-, hs⟩ := h
      have hoff := rar15_block_read_offset hbr
      have hno : s'.nextOffset = block.offset + block.size := by
        rw [← hs]
        cases hk : block.kind.isEndArchive <;> simp [hk]
      have hfs : s'.fileSize = s.fileSize := by
        rw [← hs]
        cases hk : block.kind.isEndArchive <;> simp [hk]
      refine ⟨?_, ?_, hfs⟩
      · rw [hno, hoff]
        omega
      · rw [hno]
        exact hv3

/-- `rar15_read_block_ok_progress` lifted to `next`. -/
theorem rar15_next_ok_progress {file : List Nat} {s s' : Rar15.IterState}
    {b : Rar15.Block} (h : Rar15.next file s = some (.ok b, s')) :
    s.nextOffset < s'.nextOffset ∧ s'.nextOffset ≤ s.fileSize ∧
      s'.fileSize = s.fileSize := by
  unfold Rar15.next at h
  split at h
  · exact absurd h (by simp)
  · split at h
    · exact absurd h (by simp)
    · exact rar15_read_block_ok_progress (Option.some.inj h)

/-- A RAR14 block successfully yielded by `read_block` strictly advances
`next_offset`, keeps it within `file_size` and preserves `file_size`. -/
theorem rar14_read_block_ok_progress {file : List Nat} {s s' : Rar14.IterState}
    {blk : Rar14.Block} (h : Rar14.read_block file s = (.ok blk, s')) :
    s.nextOffset < s'.nextOffset ∧ s'.nextOffset ≤ s.fileSize ∧
      s'.fileSize = s.fileSize := by
  unfold Rar14.read_block Rar14.check_and_advance at h
  dsimp only [] at h
  split at h
  · split at h
    · simp [Prod.ext_iff] at h
    · rename_i fb snd hfb
      split at h
      · simp [Prod.ext_iff] at h
      · rename_i hviol
        push_neg at hviol
        obtain ⟨hv1, hv2, hv3⟩ := hviol
        rw [Prod.ext_iff] at h
        dsimp only [] at h
        obtain ⟨-, hs⟩ := h
        have hoff := rar14_file_block_read_offset hfb
        subst hs
        simp only [Rar14.Block.size, Rar14.Block.offset, Rar14.Block.header_size,
          Rar14.Block.data_size] at hv1 hv3 ⊢
        refine ⟨by omega, by omega, trivial⟩
  · split at h
    · simp [Prod.ext_iff] at h
    · rename_i mb snd hmb
      split at h
      · simp [Prod.ext_iff] at h
      · rename_i hviol
        push_neg at hviol
        obtain ⟨hv1, hv2, hv3⟩ := hviol
        rw [Prod.ext_iff] at h
        dsimp only [] at h
        obtain ⟨-, hs⟩ := h
        have hoff := rar14_main_block_read_offset hmb
        subst hs
        simp only [Rar14.Block.size, Rar14.Block.offset, Rar14.Block.header_size,
          Rar14.Block.data_size] at hv1 hv3 ⊢
        refine ⟨by omega, by omega, trivial⟩

/-- `rar14_read_block_ok_progress` lifted to `next`. -/
theorem rar14_next_ok_progress {file : List Nat} {s s' : Rar14.IterState}
    {blk : Rar14.Block} (h : Rar14.next file s = some (.ok blk, s')) :
    s.nextOffset < s'.nextOffset ∧ s'.nextOffset ≤ s.fileSize ∧
      s'.fileSize = s.fileSize := by
  unfold Rar14.next at h
  split at h
  · exact absurd h (by simp)
  · exact rar14_read_block_ok_progress (Option.some.inj h)

/-- The item after a yielded one continues from the post-yield state. -/
theorem rar15_nth_item_succ {file : List Nat} {s s' : Rar15.IterState}
    {r : Except RarError Rar15.Block} (h : Rar15.next file s = some (r, s')) :
    ∀ n, Rar15.nth_item file s (n + 1) = Rar15.nth_item file s' n := by
  intro n
  have heq : Rar15.nth_item file s (n + 1) =
      match Rar15.next file s with
      | none => none
      | some (_, s2) => Rar15.nth_item file s2 n := rfl
  rw [heq, h]

/-- The item after a yielded one continues from the post-yield state. -/
theorem rar14_nth_item_succ {file : List Nat} {s s' : Rar14.IterState}
    {r : Except RarError Rar14.Block} (h : Rar14.next file s = some (r, s')) :
    ∀ n, Rar14.nth_item file s (n + 1) = Rar14.nth_item file s' n := by
  intro n
  have heq : Rar14.nth_item file s (n + 1) =
      match Rar14.next file s with
      | none => none
      | some (_, s2) => Rar14.nth_item file s2 n := rfl
  rw [heq, h]

/-- Once `next` declines, every later item is `none`. -/
theorem rar15_nth_item_none {file : List Nat} {s : Rar15.IterState}
    (h : Rar15.next file s = none) :
    ∀ n, Rar15.nth_item file s n = none := by
  intro n
  cases n with
  | zero => exact h
  | succ n =>
    have heq : Rar15.nth_item file s (n + 1) =
        match Rar15.next file s with
        | none => none
        | some (_, s2) => Rar15.nth_item file s2 n := rfl
    rw [heq, h]

/-- Once `next` declines, every later item is `none`. -/
theorem rar14_nth_item_none {file : List Nat} {s : Rar14.IterState}
    (h : Rar14.next file s = none) :
    ∀ n, Rar14.nth_item file s n = none := by
  intro n
  cases n with
  | zero => exact h
  | succ n =>
    have heq : Rar14.nth_item file s (n + 1) =
        match Rar14.next file s with
        | none => none
        | some (_, s2) => Rar14.nth_item file s2 n := rfl
    rw [heq, h]

/-- Fuelled error-free termination for the RAR15 iterator: the measure
`file_size - next_offset` strictly decreases across every yielded block. -/
theorem rar15_terminates_of_error_free :
    ∀ (k : Nat) (file : List Nat) (s : Rar15.IterState),
      s.fileSize - s.nextOffset ≤ k →
      (∀ n e s2, Rar15.nth_item file s n ≠ some (.error e, s2)) →
      ∃ n, Rar15.nth_item file s n = none := by
  intro k
  induction k with
  | zero =>
    intro file s hk herr
    match hnext : Rar15.next file s with
    | none => exact ⟨0, hnext⟩
    | some (.error e, s2) => exact absurd hnext (herr 0 e s2)
    | some (.ok b, s2) =>
      obtain ⟨h1, h2, -⟩ := rar15_next_ok_progress hnext
      exact absurd h2 (by omega)
  | succ k ih =>
    intro file s hk herr
    match hnext : Rar15.next file s with
    | none => exact ⟨0, hnext⟩
    | some (.error e, s2) => exact absurd hnext (herr 0 e s2)
    | some (.ok b, s2) =>
      obtain ⟨h1, h2, h3⟩ := rar15_next_ok_progress hnext
      obtain ⟨n, hn⟩ := ih file s2 (by omega) (fun n e s3 hbad =>
        herr (n + 1) e s3 (by rw [rar15_nth_item_succ hnext n]; exact hbad))
      exact ⟨n + 1, by rw [rar15_nth_item_succ hnext n]; exact hn⟩

/-- Fuelled error-free termination for the RAR14 iterator. -/
theorem rar14_terminates_of_error_free :
    ∀ (k : Nat) (file : List Nat) (s : Rar14.IterState),
      s.fileSize - s.nextOffset ≤ k →
      (∀ n e s2, Rar14.nth_item file s n ≠ some (.error e, s2)) →
      ∃ n, Rar14.nth_item file s n = none := by
  intro k
  induction k with
  | zero =>
    intro file s hk herr
    match hnext : Rar14.next file s with
    | none => exact ⟨0, hnext⟩
    | some (.error e, s2) => exact absurd hnext (herr 0 e s2)
    | some (.ok b, s2) =>
      obtain ⟨h1, h2, -⟩ := rar14_next_ok_progress hnext
      exact absurd h2 (by omega)
  | succ k ih =>
    intro file s hk herr
    match hnext : Rar14.next file s with
    | none => exact ⟨0, hnext⟩
    | some (.error e, s2) => exact absurd hnext (herr 0 e s2)
    | some (.ok b, s2) =>
      obtain ⟨h1, h2, h3⟩ := rar14_next_ok_progress hnext
      obtain ⟨n, hn⟩ := ih file s2 (by omega) (fun n e s3 hbad =>
        herr (n + 1) e s3 (by rw [rar14_nth_item_succ hnext n]; exact hbad))
      exact ⟨n + 1, by rw [rar14_nth_item_succ hnext n]; exact hn⟩

/-- A yielded RAR15 `EndArchive` block latches `end_of_archive_reached`. -/
theorem rar15_read_block_end {file : List Nat} {s s' : Rar15.IterState}
    {b : Rar15.Block} (h : Rar15.read_block file s = (.ok b, s'))
    (hk : b.kind.isEndArchive = true) : s'.endOfArchiveReached = true := by
  unfold Rar15.read_block at h
  dsimp only [] at h
  split at h
  · simp [Prod.ext_iff] at h
  · split at h
    · simp [Prod.ext_iff] at h
    · rw [Prod.ext_iff] at h
      dsimp only [] at h
      obtain ⟨hb, hs⟩ := h
      have hbb := Except.ok.inj hb
      subst hbb
      rw [← hs]
      simp [hk]

/-- A yielded RAR50 `EndArchive` block latches `end_of_archive_reached`. -/
theorem rar50_read_block_end {file : List Nat} {s s' : Rar50.IterState}
    {b : Rar50.Block} (h : Rar50.read_block file s = (.ok b, s'))
    (hk : b.kind.isEndArchive = true) : s'.endOfArchiveReached = true := by
  unfold Rar50.read_block at h
  dsimp only [] at h
  split at h
  · simp [Prod.ext_iff] at h
  · rw [Prod.ext_iff] at h
    dsimp only [] at h
    obtain ⟨hb, hs⟩ := h
    have hbb := Except.ok.inj hb
    subst hbb
    rw [← hs]
    simp [hk]

/-- Counterexample for C4: the RAR50 block sequence need not be finite.  The
block of `wrap50_file` declares `data_size = 2^64 - 5`, so its wrapped
`full_size` is `0`: the iterator yields it with an unchanged state — no
error, no `EndArchive`, no end-of-file — and therefore yields the same block
on every subsequent call, forever. -/
theorem c4_termination_counterexample :
    Rar50.next wrap50_file ⟨17, 0, false⟩ =
      some (.ok wrap50_block, ⟨17, 0, false⟩) ∧
    wrap50_block.kind.isEndArchive = false ∧
    ¬ iter50_terminates wrap50_file ⟨17, 0, false⟩ := by
  have h : Rar50.next wrap50_file ⟨17, 0, false⟩ =
      some (.ok wrap50_block, ⟨17, 0, false⟩) := by decide
  refine ⟨h, by decide, ?_⟩
  rintro ⟨n, hn⟩
  rw [rar50_nth_item_fixed h n] at hn
  exact Option.noConfusion hn

/-- C4 (amended): the RAR14 and RAR15 iterators (whose bounds checks force
every yielded block to strictly advance `next_offset` within `file_size`)
produce a finite sequence whenever no error is yielded; and for RAR15 and
RAR50 a yielded `EndArchive` block is itself still yielded before iteration
stops on the very next call.  No finiteness guarantee holds for RAR50 (see
the counterexample). -/
theorem c4_termination_amended :
    (∀ (file : List Nat) (s : Rar15.IterState),
      (∀ n e s2, Rar15.nth_item file s n ≠ some (.error e, s2)) →
      iter15_terminates file s) ∧
    (∀ (file : List Nat) (s : Rar14.IterState),
      (∀ n e s2, Rar14.nth_item file s n ≠ some (.error e, s2)) →
      iter14_terminates file s) ∧
    (∀ (file : List Nat) (s : Rar15.IterState) (b : Rar15.Block)
      (s' : Rar15.IterState),
      Rar15.next file s = some (.ok b, s') → b.kind.isEndArchive = true →
      Rar15.next file s' = none) ∧
    (∀ (file : List Nat) (s : Rar50.IterState) (b : Rar50.Block)
      (s' : Rar50.IterState),
      Rar50.next file s = some (.ok b, s') → b.kind.isEndArchive = true →
      Rar50.next file s' = none) := by
  refine ⟨?_, ?_, ?_, ?_⟩
  · intro file s herr
    exact rar15_terminates_of_error_free (s.fileSize - s.nextOffset) file s
      (Nat.le_refl _) herr
  · intro file s herr
    exact rar14_terminates_of_error_free (s.fileSize - s.nextOffset) file s
      (Nat.le_refl _) herr
  · intro file s b s' h hk
    unfold Rar15.next at h
    split at h
    · exact absurd h (by simp)
    · split at h
      · exact absurd h (by simp)
      · have hend := rar15_read_block_end (Option.some.inj h) hk
        unfold Rar15.next
        rw [if_pos hend]
  · intro file s b s' h hk
    unfold Rar50.next at h
    split at h
    · exact absurd h (by simp)
    · split at h
      · exact absurd h (by simp)
      · have hend := rar50_read_block_end (Option.some.inj h) hk
        unfold Rar50.next
        rw [if_pos hend]

/-- Witness for C4 (amended): the single-block archives `end15_file` and
`ok14_file` yield no error and terminate, and the `EndArchive` fixtures stop
iteration right after being yielded. -/
theorem c4_termination_amended_witness :
    iter15_terminates end15_file ⟨7, 0, false⟩ ∧
    iter14_terminates ok14_file ⟨3, 0, false⟩ ∧
    Rar15.next end15_file ⟨7, 7, true⟩ = none ∧
    Rar50.next end50_file ⟨8, 7, true⟩ = none :=
  ⟨c4_termination_amended.1 end15_file ⟨7, 0, false⟩ (fun n e s2 => by
      cases n with
      | zero =>
        intro hbad
        rw [show Rar15.nth_item end15_file ⟨7, 0, false⟩ 0 =
            some (.ok end15_block, ⟨7, 7, true⟩) from by decide] at hbad
        simp at hbad
      | succ m =>
        rw [rar15_nth_item_succ (show Rar15.next end15_file ⟨7, 0, false⟩ =
              some (.ok end15_block, ⟨7, 7, true⟩) from by decide) m,
          rar15_nth_item_none (show Rar15.next end15_file ⟨7, 7, true⟩ = none
              from by decide) m]
        simp),
    c4_termination_amended.2.1 ok14_file ⟨3, 0, false⟩ (fun n e s2 => by
      cases n with
      | zero =>
        intro hbad
        rw [show Rar14.nth_item ok14_file ⟨3, 0, false⟩ 0 =
            some (.ok (.main ⟨0, 3, 0⟩), ⟨3, 3, true⟩) from by decide] at hbad
        simp at hbad
      | succ m =>
        rw [rar14_nth_item_succ (show Rar14.next ok14_file ⟨3, 0, false⟩ =
              some (.ok (.main ⟨0, 3, 0⟩), ⟨3, 3, true⟩) from by decide) m,
          rar14_nth_item_none (show Rar14.next ok14_file ⟨3, 3, true⟩ = none
              from by decide) m]
        simp),
    c4_termination_amended.2.2.1 end15_file ⟨7, 0, false⟩ end15_block
      ⟨7, 7, true⟩ (by decide) (by decide),
    c4_termination_amended.2.2.2 end50_file ⟨8, 0, false⟩ end50_block
      ⟨8, 7, true⟩ (by decide) (by decide)⟩

/-! ## Record-dispatch helper lemmas (`parse_records!`) -/

/-- `Except.map` hitting `ok` splits into a successful stage. -/
theorem except_map_ok {ε α β : Type} {f : α → β} {ma : Except ε α} {b : β}
    (h : Except.map f ma = .ok b) : ∃ a, ma = .ok a ∧ b = f a := by
  cases ma with
  | error e => exact absurd h (by simp [Except.map])
  | ok a => exact ⟨a, rfl, (Except.ok.inj h).symm⟩

/-- The unknown-records bookkeeping of the main-block dispatch matches the
specification's walk `main_claim_unknown_tags`. -/
theorem main_unknown_fold :
    ∀ (records : List Rar50.CommonRecord) (st st' : Rar50.MainRecState),
      process_records Rar50.main_record_step st records = .ok st' →
      st'.unknown_records = st.unknown_records ++
        (main_claim_unknown_tags st.locator.isSome st.metadata.isSome records).map
          (fun t => (⟨t⟩ : Rar50.UnknownRecord)) := by
  intro records
  induction records with
  | nil =>
    intro st st' h
    have hst := Except.ok.inj h
    subst hst
    simp [main_claim_unknown_tags]
  | cons r rs ih =>
    intro st st' h
    unfold process_records at h
    split at h
    · exact absurd h (by simp)
    · rename_i st2 hstep
      unfold Rar50.main_record_step at hstep
      split at hstep
      · rename_i hc
        obtain ⟨l, -, hst2⟩ := except_map_ok hstep
        subst hst2
        have hnone := Option.isNone_iff_eq_none.mp hc.2
        simp only [main_claim_unknown_tags]
        rw [if_pos ⟨hc.1, by rw [hnone]; simp⟩]
        have hih := ih _ _ h
        simpa using hih
      · rename_i hnc1
        split at hstep
        · rename_i hc
          obtain ⟨m, -, hst2⟩ := except_map_ok hstep
          subst hst2
          have hnone := Option.isNone_iff_eq_none.mp hc.2
          simp only [main_claim_unknown_tags]
          rw [if_neg (fun hx => hnc1 ⟨hx.1, by cases hl : st.locator <;> simp_all⟩),
            if_pos ⟨hc.1, by rw [hnone]; simp⟩]
          have hih := ih _ _ h
          simpa using hih
        · rename_i hnc2
          have hst2 := (Except.ok.inj hstep).symm
          subst hst2
          simp only [main_claim_unknown_tags]
          rw [if_neg (fun hx => hnc1 ⟨hx.1, by cases hl : st.locator <;> simp_all⟩),
            if_neg (fun hx => hnc2 ⟨hx.1, by cases hm : st.metadata <;> simp_all⟩)]
          have hih := ih _ _ h
          simp only [] at hih
          rw [hih]
          simp

/-- The locator field of the main-block dispatch is the decoding of the
first tag-`0x0001` record (when the field starts unset). -/
theorem main_locator_fold :
    ∀ (records : List Rar50.CommonRecord) (st st' : Rar50.MainRecState),
      process_records Rar50.main_record_step st records = .ok st' →
      st'.locator = (match st.locator with
        | some l => some l
        | none =>
          match records.find? (fun r => r.record_type = 0x0001) with
          | none => none
          | some r => (Rar50.locator_record_read r.data).toOption) := by
  intro records
  induction records with
  | nil =>
    intro st st' h
    have hst := Except.ok.inj h
    subst hst
    cases st.locator <;> simp
  | cons r rs ih =>
    intro st st' h
    unfold process_records at h
    split at h
    · exact absurd h (by simp)
    · rename_i st2 hstep
      unfold Rar50.main_record_step at hstep
      split at hstep
      · rename_i hc
        obtain ⟨l, hread, hst2⟩ := except_map_ok hstep
        subst hst2
        have hnone := Option.isNone_iff_eq_none.mp hc.2
        have hih := ih _ _ h
        simp only [] at hih
        rw [hnone, List.find?_cons_of_pos _ (by simp [hc.1])]
        rw [hih]
        dsimp only []
        rw [hread]
        rfl
      · rename_i hnc1
        split at hstep
        · rename_i hc
          obtain ⟨m, -, hst2⟩ := except_map_ok hstep
          subst hst2
          have hih := ih _ _ h
          dsimp only [] at hih
          rw [List.find?_cons_of_neg _ (by simp [hc.1])]
          exact hih
        · rename_i hnc2
          have hst2 := (Except.ok.inj hstep).symm
          subst hst2
          have hih := ih _ _ h
          dsimp only [] at hih
          by_cases htag : r.record_type = 0x0001
          · have hsome : ∃ l, st.locator = some l := by
              cases hl : st.locator with
              | none => exact absurd ⟨htag, by rw [hl]; rfl⟩ hnc1
              | some l => exact ⟨l, rfl⟩
            obtain ⟨l, hl⟩ := hsome
            rw [hl] at hih ⊢
            exact hih
          · rw [List.find?_cons_of_neg _ (by simp [htag])]
            exact hih

/-- The metadata field of the main-block dispatch is the decoding of the
first tag-`0x0002` record (when the field starts unset). -/
theorem main_metadata_fold :
    ∀ (records : List Rar50.CommonRecord) (st st' : Rar50.MainRecState),
      process_records Rar50.main_record_step st records = .ok st' →
      st'.metadata = (match st.metadata with
        | some m => some m
        | none =>
          match records.find? (fun r => r.record_type = 0x0002) with
          | none => none
          | some r => (Rar50.metadata_record_read r.data).toOption) := by
  intro records
  induction records with
  | nil =>
    intro st st' h
    have hst := Except.ok.inj h
    subst hst
    cases st.metadata <;> simp
  | cons r rs ih =>
    intro st st' h
    unfold process_records at h
    split at h
    · exact absurd h (by simp)
    · rename_i st2 hstep
      unfold Rar50.main_record_step at hstep
      split at hstep
      · rename_i hc
        obtain ⟨l, -, hst2⟩ := except_map_ok hstep
        subst hst2
        have hih := ih _ _ h
        dsimp only [] at hih
        rw [List.find?_cons_of_neg _ (by simp [hc.1])]
        exact hih
      · rename_i hnc1
        split at hstep
        · rename_i hc
          obtain ⟨m, hread, hst2⟩ := except_map_ok hstep
          subst hst2
          have hnone := Option.isNone_iff_eq_none.mp hc.2
          have hih := ih _ _ h
          simp only [] at hih
          rw [hnone, List.find?_cons_of_pos _ (by simp [hc.1])]
          rw [hih]
          dsimp only []
          rw [hread]
          rfl
        · rename_i hnc2
          have hst2 := (Except.ok.inj hstep).symm
          subst hst2
          have hih := ih _ _ h
          dsimp only [] at hih
          by_cases htag : r.record_type = 0x0002
          · have hsome : ∃ m, st.metadata = some m := by
              cases hm : st.metadata with
              | none => exact absurd ⟨htag, by rw [hm]; rfl⟩ hnc2
              | some m => exact ⟨m, rfl⟩
            obtain ⟨m, hm⟩ := hsome
            rw [hm] at hih ⊢
            exact hih
          · rw [List.find?_cons_of_neg _ (by simp [htag])]
            exact hih

/-- Counterexample for C6: the service block's `SERVICE_DATA` (`0x07`) arm
has no first-wins guard.  Folding two tag-7 records over the
recovery-record dispatch decodes the *second* one into the typed field
(overwriting the first) and appends nothing to the unknown-records list,
contradicting "only the first occurrence is decoded / later duplicates are
appended to the unknown-records list". -/
theorem c6_record_dispatch_counterexample :
    process_records (Rar50.service_record_step (.ok .recoveryRecord))
        ⟨none, none, none, none, none, none, none, []⟩ [⟨7, [10]⟩, ⟨7, [20]⟩] =
      .ok ⟨none, none, none, none, none, none, some ⟨20, []⟩, []⟩ ∧
    (⟨none, none, none, none, none, none, some ⟨20, []⟩, []⟩ :
        Rar50.ServiceRecState).recovery_record ≠ some ⟨10, []⟩ ∧
    (⟨none, none, none, none, none, none, some ⟨20, []⟩, []⟩ :
        Rar50.ServiceRecState).unknown_records = [] :=
  ⟨by decide, by decide, by decide⟩

/-- C6 (amended): for the guarded tags the dispatch is first-wins and
error-free on the duplicate/unknown path — the main block decodes only the
first tag-1/tag-2 record into `locator`/`metadata` and folds every later
duplicate and every unrecognized tag into the unknown-records list (exactly
the specification's walk `main_claim_unknown_tags`), and the file/service
duplicate-or-unknown arms always succeed with only the tag retained.  The
exception is the service block's `SERVICE_DATA` tag `0x07`: under a
recovery-record block name it is re-decoded on *every* occurrence
(last wins); under any other name it is folded into the unknown list. -/
theorem c6_record_dispatch_amended :
    (∀ (records : List Rar50.CommonRecord) (st' : Rar50.MainRecState),
      process_records Rar50.main_record_step ⟨none, none, []⟩ records = .ok st' →
      st'.unknown_records =
        (main_claim_unknown_tags false false records).map
          (fun t => (⟨t⟩ : Rar50.UnknownRecord)) ∧
      st'.locator = (match records.find? (fun r => r.record_type = 0x0001) with
        | none => none
        | some r => (Rar50.locator_record_read r.data).toOption) ∧
      st'.metadata = (match records.find? (fun r => r.record_type = 0x0002) with
        | none => none
        | some r => (Rar50.metadata_record_read r.data).toOption)) ∧
    (∀ (st : Rar50.MainRecState) (r : Rar50.CommonRecord),
      ¬(r.record_type = 0x0001 ∧ st.locator.isNone = true) →
      ¬(r.record_type = 0x0002 ∧ st.metadata.isNone = true) →
      Rar50.main_record_step st r =
        .ok { st with unknown_records := st.unknown_records ++ [⟨r.record_type⟩] }) ∧
    (∀ (st : Rar50.FileRecState) (r : Rar50.CommonRecord),
      ¬(r.record_type = 0x01 ∧ st.encryption.isNone = true) →
      ¬(r.record_type = 0x02 ∧ st.hash.isNone = true) →
      ¬(r.record_type = 0x03 ∧ st.extended_time.isNone = true) →
      ¬(r.record_type = 0x04 ∧ st.version.isNone = true) →
      ¬(r.record_type = 0x05 ∧ st.filesystem_redirection.isNone = true) →
      ¬(r.record_type = 0x06 ∧ st.unix_owner.isNone = true) →
      Rar50.file_record_step st r =
        .ok { st with unknown_records := st.unknown_records ++ [⟨r.record_type⟩] }) ∧
    (∀ (st : Rar50.ServiceRecState) (r : Rar50.CommonRecord)
      (info : Rar50.RecoveryRecordInfo),
      r.record_type = 0x07 →
      Rar50.recovery_record_info_read r.data = .ok info →
      Rar50.service_record_step (.ok .recoveryRecord) st r =
        .ok { st with recovery_record := some info }) ∧
    (∀ (name : Except (List Nat) Rar50.ServiceBlockType)
      (st : Rar50.ServiceRecState) (r : Rar50.CommonRecord),
      name ≠ .ok .recoveryRecord →
      r.record_type = 0x07 →
      Rar50.service_record_step name st r =
        .ok { st with unknown_records := st.unknown_records ++ [⟨r.record_type⟩] }) := by
  refine ⟨?_, ?_, ?_, ?_, ?_⟩
  · intro records st' h
    refine ⟨?_, ?_, ?_⟩
    · have := main_unknown_fold records _ _ h
      simpa using this
    · exact main_locator_fold records _ _ h
    · exact main_metadata_fold records _ _ h
  · intro st r h1 h2
    unfold Rar50.main_record_step
    rw [if_neg h1, if_neg h2]
  · intro st r h1 h2 h3 h4 h5 h6
    unfold Rar50.file_record_step
    rw [if_neg h1, if_neg h2, if_neg h3, if_neg h4, if_neg h5, if_neg h6]
  · intro st r info htag hread
    unfold Rar50.service_record_step
    rw [if_neg (by simp [htag]), if_neg (by simp [htag]), if_neg (by simp [htag]),
      if_neg (by simp [htag]), if_neg (by simp [htag]), if_neg (by simp [htag]),
      if_pos htag]
    simp only []
    rw [hread]
    rfl
  · intro name st r hne htag
    unfold Rar50.service_record_step
    rw [if_neg (by simp [htag]), if_neg (by simp [htag]), if_neg (by simp [htag]),
      if_neg (by simp [htag]), if_neg (by simp [htag]), if_neg (by simp [htag]),
      if_pos htag]
    cases name with
    | error n => rfl
    | ok t =>
      cases t with
      | recoveryRecord => exact absurd rfl hne
      | comment => rfl
      | quickOpen => rfl
      | ntfsFilePermissions => rfl
      | ntfsAlternateDataStream => rfl

/-- Witness for C6 (amended): folding a locator record, a duplicate locator
record and an unrecognized record decodes only the first, keeps the tags
`[1, 99]` in order, and the one-step duplicate/unknown arms of all three
block types succeed without error. -/
theorem c6_record_dispatch_amended_witness :
    ((⟨some ⟨none, none⟩, none, [⟨1⟩, ⟨99⟩]⟩ : Rar50.MainRecState).unknown_records =
      (main_claim_unknown_tags false false [⟨1, [0]⟩, ⟨1, [0]⟩, ⟨99, []⟩]).map
        (fun t => (⟨t⟩ : Rar50.UnknownRecord)) ∧
      (⟨some ⟨none, none⟩, none, [⟨1⟩, ⟨99⟩]⟩ : Rar50.MainRecState).locator =
        some ⟨none, none⟩ ∧
      (⟨some ⟨none, none⟩, none, [⟨1⟩, ⟨99⟩]⟩ : Rar50.MainRecState).metadata =
        none) ∧
    Rar50.main_record_step ⟨some ⟨none, none⟩, none, []⟩ ⟨1, []⟩ =
      .ok ⟨some ⟨none, none⟩, none, [⟨1⟩]⟩ ∧
    Rar50.file_record_step ⟨none, none, none, none, none, none, []⟩ ⟨99, [5]⟩ =
      .ok ⟨none, none, none, none, none, none, [⟨99⟩]⟩ ∧
    Rar50.service_record_step (.ok .recoveryRecord)
        ⟨none, none, none, none, none, none, some ⟨10, []⟩, []⟩ ⟨7, [20]⟩ =
      .ok ⟨none, none, none, none, none, none, some ⟨20, []⟩, []⟩ ∧
    Rar50.service_record_step (.ok .comment)
        ⟨none, none, none, none, none, none, none, []⟩ ⟨7, [20]⟩ =
      .ok ⟨none, none, none, none, none, none, none, [⟨7⟩]⟩ :=
  ⟨c6_record_dispatch_amended.1 [⟨1, [0]⟩, ⟨1, [0]⟩, ⟨99, []⟩]
      ⟨some ⟨none, none⟩, none, [⟨1⟩, ⟨99⟩]⟩ (by decide),
    c6_record_dispatch_amended.2.1 ⟨some ⟨none, none⟩, none, []⟩ ⟨1, []⟩
      (by decide) (by decide),
    c6_record_dispatch_amended.2.2.1 ⟨none, none, none, none, none, none, []⟩
      ⟨99, [5]⟩ (by decide) (by decide) (by decide) (by decide) (by decide)
      (by decide),
    c6_record_dispatch_amended.2.2.2.1
      ⟨none, none, none, none, none, none, some ⟨10, []⟩, []⟩ ⟨7, [20]⟩ ⟨20, []⟩
      rfl (by decide),
    c6_record_dispatch_amended.2.2.2.2 (.ok .comment)
      ⟨none, none, none, none, none, none, none, []⟩ ⟨7, [20]⟩ (by decide) rfl⟩

end Rawrxd
